import Mathlib

/-!
# Check definitions: decoding and projections

A shallow embedding of `agent/structs/check_definition.go`:

* `structs.CheckDefinition.UnmarshalJSON` — the tolerant decoder (lines 46–134),
* `structs.CheckDefinition.HealthCheck`   — the health view (lines 136–152),
* `structs.CheckDefinition.CheckType`     — the check-specification view (lines 154–181).

The decoder first hands the document to `encoding/json` (line 67) and then runs the
alias translation and the duration parsing on the overlay struct `aux`.  The library
stage is modelled by `structs.jsonUnmarshal`; `time.ParseDuration` is a parameter `pd`
of the decoder, so every statement holds for whatever the library function computes.
-/

namespace structs

/-! ## JSON documents -/

/-- A JSON number literal.  `int n` is a literal without fraction and exponent,
`dec mant exp10` a literal with one of them, of value `mant * 10 ^ exp10`. -/
inductive Number where
  | int (n : Int)
  | dec (mant : Int) (exp10 : Int)
  deriving DecidableEq, Repr

/-- A JSON value. -/
inductive JSON where
  | null
  | bool (b : Bool)
  | num (n : Number)
  | str (s : String)
  | arr (xs : List JSON)
  | obj (kvs : List (String × JSON))

/-- A document: the members of the top-level JSON object, in textual order
(keys may repeat; `encoding/json` processes them one after the other). -/
abbrev Doc := List (String × JSON)

/-- The word `encoding/json` uses for a value in an `UnmarshalTypeError`. -/
def JSON.kind : JSON → String
  | .null => "null"
  | .bool _ => "bool"
  | .num _ => "number"
  | .str _ => "string"
  | .arr _ => "array"
  | .obj _ => "object"

/-! ## float64 values of number literals -/

/-- A finite IEEE-754 binary64 value, `(-1)^neg * mant * 2^exp`. -/
structure Float64 where
  neg : Bool
  mant : Nat
  exp : Int
  deriving DecidableEq, Repr

/-- Number of binary digits of `n`, with `fuel ≥ n` steps available. -/
def bitLenAux : Nat → Nat → Nat
  | 0, _ => 0
  | fuel + 1, n => if n = 0 then 0 else bitLenAux fuel (n / 2) + 1

/-- Number of binary digits of `n` (`0` for `0`). -/
def bitLen (n : Nat) : Nat := bitLenAux n n

/-- The quotient `num / den` rounded to the nearest integer, ties to even. -/
def roundHalfEven (num den : Nat) : Nat :=
  let q := num / den
  let r := num % den
  if 2 * r < den then q
  else if den < 2 * r then q + 1
  else if q % 2 = 0 then q else q + 1

/-- The integer `⌊log₂ (num / den)⌋` for positive `num` and `den`. -/
def floorLog2 (num den : Nat) : Int :=
  let d : Int := (bitLen num : Int) - (bitLen den : Int)
  let reaches : Bool :=
    if 0 ≤ d then decide (den * 2 ^ d.toNat ≤ num) else decide (den ≤ num * 2 ^ (-d).toNat)
  if reaches then d else d - 1

/-- The binary64 nearest to `num / den` (round to nearest, ties to even) as mantissa and
binary exponent; `none` when the value rounds beyond the largest finite binary64, which is
the case in which `strconv.ParseFloat` reports a range error. -/
def roundFloat64 (num den : Nat) : Option (Nat × Int) :=
  if num = 0 then some (0, 0)
  else
    let e : Int := max (floorLog2 num den - 52) (-1074)
    let m : Nat :=
      if 0 ≤ e then roundHalfEven num (den * 2 ^ e.toNat)
      else roundHalfEven (num * 2 ^ (-e).toNat) den
    if 971 < e ∨ (e = 971 ∧ 2 ^ 53 ≤ m) then none else some (m, e)

/-- The float64 that `encoding/json` stores for a number literal decoded into an
`interface{}` (`strconv.ParseFloat(s, 64)`); `none` is the range error. -/
def Number.toFloat64 : Number → Option Float64
  | .int n => (roundFloat64 n.natAbs 1).map fun r => ⟨decide (n < 0), r.1, r.2⟩
  | .dec m x =>
    (if 0 ≤ x then roundFloat64 (m.natAbs * 10 ^ x.toNat) 1
     else roundFloat64 m.natAbs (10 ^ (-x).toNat)).map fun r => ⟨decide (m < 0), r.1, r.2⟩

/-- The conversion `time.Duration(v)` of a float64 `v`: truncation toward zero.  A value
outside the int64 range converts to the implementation-dependent result of the amd64
instruction, the smallest int64. -/
def Float64.toInt64 (f : Float64) : Int :=
  let mag : Nat :=
    if 0 ≤ f.exp then f.mant * 2 ^ f.exp.toNat else f.mant / 2 ^ (-f.exp).toNat
  let v : Int := if f.neg then -(mag : Int) else (mag : Int)
  if -(2 : Int) ^ 63 ≤ v ∧ v < (2 : Int) ^ 63 then v else -(2 : Int) ^ 63

/-! ## Values of the overlay struct -/

/-- The dynamic value of an `interface{}` slot after `encoding/json` has filled it:
`nil`, `bool`, `float64`, `string`, `[]interface{}` or `map[string]interface{}`.
The elements of the last two are never inspected by the decoder and are not kept. -/
inductive Raw where
  | nil
  | bool (b : Bool)
  | float64 (f : Float64)
  | string (s : String)
  | slice
  | map
  deriving DecidableEq, Repr

/-- The test `x == nil` on an `interface{}` slot. -/
def Raw.isNil : Raw → Bool
  | .nil => true
  | _ => false

/-- Errors returned by `UnmarshalJSON`: a `*json.UnmarshalTypeError` (the JSON value that
did not fit and the key of the struct field) or the error of `time.ParseDuration`. -/
inductive Error where
  | unmarshalType (value : String) (field : String)
  | parseDuration (msg : String)
  deriving DecidableEq, Repr

/-- The method `d.saveError` of the JSON decoder: the first error is kept. -/
def saveError {ε : Type} : Option ε → Option ε → Option ε
  | some e, _ => some e
  | none, e => e

/-- CheckDefinition is used to JSON decode the Check definitions (lines 12–44).
Durations are `time.Duration`, a count of nanoseconds; a nil slice or map is `none`; a
map is the list of its entries in increasing order of the keys. -/
structure CheckDefinition where
  ID : String := ""
  Name : String := ""
  Notes : String := ""
  ServiceID : String := ""
  Token : String := ""
  Status : String := ""
  ScriptArgs : Option (List String) := none
  HTTP : String := ""
  Header : Option (List (String × Option (List String))) := none
  Method : String := ""
  TCP : String := ""
  Interval : Int := 0
  DockerContainerID : String := ""
  Shell : String := ""
  GRPC : String := ""
  GRPCUseTLS : Bool := false
  TLSSkipVerify : Bool := false
  AliasNode : String := ""
  AliasService : String := ""
  Timeout : Int := 0
  TTL : Int := 0
  SuccessBeforePassing : Int := 0
  FailuresBeforeCritical : Int := 0
  DeregisterCriticalServiceAfter : Int := 0
  OutputMaxSize : Int := 0
  deriving DecidableEq, Repr

/-- The anonymous overlay struct `aux` of `UnmarshalJSON` (lines 48–66).  `Alias` points
to the target record `t`, so what `encoding/json` writes through it is written to `t`.
The three `Spare` fields belong to the slice headers of `t.ScriptArgs`, `ArgsCamel` and
`ScriptArgsCamel`: the elements that the backing array of the slice still holds beyond
its length, which `encoding/json` exposes again when it regrows the slice. -/
structure Aux where
  Interval : Raw := .nil
  Timeout : Raw := .nil
  TTL : Raw := .nil
  DeregisterCriticalServiceAfter : Raw := .nil
  ArgsCamel : Option (List String) := none
  ScriptArgsCamel : Option (List String) := none
  DeregisterCriticalServiceAfterCamel : Raw := .nil
  DockerContainerIDCamel : String := ""
  TLSSkipVerifyCamel : Bool := false
  ServiceIDCamel : String := ""
  Alias : CheckDefinition := {}
  ScriptArgsSpare : List String := []
  ArgsCamelSpare : List String := []
  ScriptArgsCamelSpare : List String := []
  deriving DecidableEq, Repr

/-! ## The fields `encoding/json` sees in `aux` -/

/-- The fields of `aux` that `encoding/json` fills, in index order: the ten fields of the
overlay itself, then the fields of the embedded `*Alias` that are not hidden by an overlay
field of the same name (`Interval`, `Timeout`, `TTL` and `DeregisterCriticalServiceAfter`
of the record are hidden by the raw slots). -/
inductive Field where
  | Interval | Timeout | TTL | DeregisterCriticalServiceAfter
  | ArgsCamel | ScriptArgsCamel | DeregisterCriticalServiceAfterCamel
  | DockerContainerIDCamel | TLSSkipVerifyCamel | ServiceIDCamel
  | ID | Name | Notes | ServiceID | Token | Status
  | ScriptArgs | HTTP | Header | Method | TCP | DockerContainerID | Shell
  | GRPC | GRPCUseTLS | TLSSkipVerify | AliasNode | AliasService
  | SuccessBeforePassing | FailuresBeforeCritical | OutputMaxSize
  deriving DecidableEq, Repr

/-- The JSON key of a field: its `json` tag if it has one, else its Go name. -/
def Field.key : Field → String
  | .Interval => "Interval"
  | .Timeout => "Timeout"
  | .TTL => "TTL"
  | .DeregisterCriticalServiceAfter => "DeregisterCriticalServiceAfter"
  | .ArgsCamel => "args"
  | .ScriptArgsCamel => "script_args"
  | .DeregisterCriticalServiceAfterCamel => "deregister_critical_service_after"
  | .DockerContainerIDCamel => "docker_container_id"
  | .TLSSkipVerifyCamel => "tls_skip_verify"
  | .ServiceIDCamel => "service_id"
  | .ID => "ID"
  | .Name => "Name"
  | .Notes => "Notes"
  | .ServiceID => "ServiceID"
  | .Token => "Token"
  | .Status => "Status"
  | .ScriptArgs => "ScriptArgs"
  | .HTTP => "HTTP"
  | .Header => "Header"
  | .Method => "Method"
  | .TCP => "TCP"
  | .DockerContainerID => "DockerContainerID"
  | .Shell => "Shell"
  | .GRPC => "GRPC"
  | .GRPCUseTLS => "GRPCUseTLS"
  | .TLSSkipVerify => "TLSSkipVerify"
  | .AliasNode => "AliasNode"
  | .AliasService => "AliasService"
  | .SuccessBeforePassing => "SuccessBeforePassing"
  | .FailuresBeforeCritical => "FailuresBeforeCritical"
  | .OutputMaxSize => "OutputMaxSize"

/-- All fields, in the order in which `encoding/json` tries them. -/
def Field.all : List Field :=
  [.Interval, .Timeout, .TTL, .DeregisterCriticalServiceAfter,
   .ArgsCamel, .ScriptArgsCamel, .DeregisterCriticalServiceAfterCamel,
   .DockerContainerIDCamel, .TLSSkipVerifyCamel, .ServiceIDCamel,
   .ID, .Name, .Notes, .ServiceID, .Token, .Status,
   .ScriptArgs, .HTTP, .Header, .Method, .TCP, .DockerContainerID, .Shell,
   .GRPC, .GRPCUseTLS, .TLSSkipVerify, .AliasNode, .AliasService,
   .SuccessBeforePassing, .FailuresBeforeCritical, .OutputMaxSize]

/-- Case folding of `encoding/json` for ASCII field names: ASCII letters fold to upper
case, and the two letters U+017F (long s) and U+212A (Kelvin sign) fold to `S` and `K`. -/
def foldChar (c : Char) : Char :=
  if 'a' ≤ c ∧ c ≤ 'z' then Char.ofNat (c.toNat - 32)
  else if c = Char.ofNat 0x17F then 'S'
  else if c = Char.ofNat 0x212A then 'K'
  else c

/-- The case-insensitive match of a field name with a key. -/
def equalFold (name key : String) : Bool :=
  name.toList.map foldChar == key.toList.map foldChar

/-- The field a key of the document decodes into: a field whose name is the key, else
the first field whose name matches the key case-insensitively; `none` for an unknown
key, which is skipped. -/
def findField (key : String) : Option Field :=
  match Field.all.find? (fun f => f.key == key) with
  | some f => some f
  | none => Field.all.find? (fun f => equalFold f.key key)

/-! ## Decoding one value into one field

Each decoder returns the new value of the field and, when the JSON value does not fit
the Go type, the description of the value that `encoding/json` puts into its
`UnmarshalTypeError`. -/

/-- A JSON value into a Go `string`: `null` leaves the field as it is, any value
other than a string is a type error and leaves the field as it is. -/
def decodeString (old : String) (v : JSON) : String × Option String :=
  match v with
  | .str s => (s, none)
  | .null => (old, none)
  | v => (old, some v.kind)

/-- A JSON value into a Go `bool`. -/
def decodeBool (old : Bool) (v : JSON) : Bool × Option String :=
  match v with
  | .bool b => (b, none)
  | .null => (old, none)
  | v => (old, some v.kind)

/-- A JSON value into a Go `int` (64 bits): `strconv.ParseInt` accepts a literal
without fraction and exponent that lies in the int64 range. -/
def decodeInt (old : Int) (v : JSON) : Int × Option String :=
  match v with
  | .num (.int n) =>
    if -(2 : Int) ^ 63 ≤ n ∧ n < (2 : Int) ^ 63 then (n, none)
    else (old, some v.kind)
  | .null => (old, none)
  | v => (old, some v.kind)

/-- The elements of a JSON array into the elements of a `[]string`: element `i` is
decoded into what the backing array `buf` of the slice holds at index `i`, the empty
string beyond the elements that were written to it.  A `null` element (or one of the
wrong type) therefore keeps what was there. -/
def decodeElems : List String → List JSON → List String × Option String
  | _, [] => ([], none)
  | buf, x :: xs =>
    let r := decodeString (buf.headD "") x
    let rs := decodeElems buf.tail xs
    (r.1 :: rs.1, saveError r.2 rs.2)

/-- A `[]string` slot while `encoding/json` decodes into it: the slice (`none` is the
nil slice) and the stale elements that its backing array holds beyond its length. -/
abbrev SliceState := Option (List String) × List String

/-- A JSON value into a Go `[]string`.  The value `null` sets the slice to nil.  An
array is decoded element by element over the backing array (the slice followed by its
stale elements); the slice is cut or extended to the length of the array, and what the
backing array holds beyond that length stays behind as stale elements.  The empty array
gives a new empty slice, which is not nil.  Any other value is a type error and leaves
the slice as it is. -/
def decodeStrings (old : SliceState) (v : JSON) : SliceState × Option String :=
  match v with
  | .null => ((none, []), none)
  | .arr [] => ((some [], []), none)
  | .arr xs =>
    let buf := old.1.getD [] ++ old.2
    let r := decodeElems buf xs
    ((some r.1, buf.drop xs.length), r.2)
  | v => (old, some v.kind)

/-- The assignment `m[k] = v` on a map.  A Go map has no order: it is kept as the list
of its entries in increasing order of the keys, so that equal maps are equal lists. -/
def mapAssign {α : Type} (m : List (String × α)) (k : String) (v : α) : List (String × α) :=
  match m with
  | [] => [(k, v)]
  | (k', v') :: rest =>
    if k' = k then (k, v) :: rest
    else if k < k' then (k, v) :: (k', v') :: rest
    else (k', v') :: mapAssign rest k v

/-- The members of a JSON object into a `map[string][]string`: each value is decoded
into a fresh element, which is then stored under its key. -/
def decodeMembers :
    List (String × Option (List String)) → List (String × JSON) →
      List (String × Option (List String)) × Option String
  | m, [] => (m, none)
  | m, (k, x) :: rest =>
    let r := decodeStrings (none, []) x
    let rs := decodeMembers (mapAssign m k r.1.1) rest
    (rs.1, saveError r.2 rs.2)

/-- A JSON value into a Go `map[string][]string`: `null` sets the map to nil, an
object adds its members to the map (allocating it when it is nil). -/
def decodeHeader (old : Option (List (String × Option (List String))))
    (v : JSON) : Option (List (String × Option (List String))) × Option String :=
  match v with
  | .null => (none, none)
  | .obj kvs =>
    let r := decodeMembers (old.getD []) kvs
    (some r.1, r.2)
  | v => (old, some v.kind)

mutual
/-- Whether every number literal inside a value has a float64 (no range error). -/
def JSON.floatsOk : JSON → Bool
  | .null => true
  | .bool _ => true
  | .num n => n.toFloat64.isSome
  | .str _ => true
  | .arr xs => floatsOkList xs
  | .obj kvs => floatsOkMembers kvs
/-- The same for the elements of an array. -/
def floatsOkList : List JSON → Bool
  | [] => true
  | x :: xs => x.floatsOk && floatsOkList xs
/-- The same for the members of an object. -/
def floatsOkMembers : List (String × JSON) → Bool
  | [] => true
  | (_, x) :: rest => x.floatsOk && floatsOkMembers rest
end

/-- A JSON value into an `interface{}`: `null` gives nil, a string a `string`, a
number its `float64`, a boolean a `bool`, an array a `[]interface{}` and an object a
`map[string]interface{}`.  A number literal outside the float64 range is a type error:
as the value itself it leaves the slot as it is, inside an array or an object it leaves
nil in its place.  (The error of the library also quotes the literal.) -/
def decodeInterface (old : Raw) (v : JSON) : Raw × Option String :=
  match v with
  | .null => (.nil, none)
  | .bool b => (.bool b, none)
  | .num n =>
    match n.toFloat64 with
    | some f => (.float64 f, none)
    | none => (old, some "number")
  | .str s => (.string s, none)
  | .arr xs => (.slice, if floatsOkList xs then none else some "number")
  | .obj kvs => (.map, if floatsOkMembers kvs then none else some "number")

/-! ## The library stage: `json.Unmarshal(data, &aux)` -/

/-- The `*json.UnmarshalTypeError` for a value that did not fit the field `f`. -/
def typeError (f : Field) (value : Option String) : Option Error :=
  value.map fun w => .unmarshalType w f.key

/-- One member of the document decoded into the field `f` of `aux`, with the type
error of this member, if any. -/
def decodeField (f : Field) (v : JSON) (aux : Aux) : Aux × Option Error :=
  match f with
  | .Interval =>
    let r := decodeInterface aux.Interval v
    ({ aux with Interval := r.1 }, typeError f r.2)
  | .Timeout =>
    let r := decodeInterface aux.Timeout v
    ({ aux with Timeout := r.1 }, typeError f r.2)
  | .TTL =>
    let r := decodeInterface aux.TTL v
    ({ aux with TTL := r.1 }, typeError f r.2)
  | .DeregisterCriticalServiceAfter =>
    let r := decodeInterface aux.DeregisterCriticalServiceAfter v
    ({ aux with DeregisterCriticalServiceAfter := r.1 }, typeError f r.2)
  | .ArgsCamel =>
    let r := decodeStrings (aux.ArgsCamel, aux.ArgsCamelSpare) v
    ({ aux with ArgsCamel := r.1.1, ArgsCamelSpare := r.1.2 }, typeError f r.2)
  | .ScriptArgsCamel =>
    let r := decodeStrings (aux.ScriptArgsCamel, aux.ScriptArgsCamelSpare) v
    ({ aux with ScriptArgsCamel := r.1.1, ScriptArgsCamelSpare := r.1.2 }, typeError f r.2)
  | .DeregisterCriticalServiceAfterCamel =>
    let r := decodeInterface aux.DeregisterCriticalServiceAfterCamel v
    ({ aux with DeregisterCriticalServiceAfterCamel := r.1 }, typeError f r.2)
  | .DockerContainerIDCamel =>
    let r := decodeString aux.DockerContainerIDCamel v
    ({ aux with DockerContainerIDCamel := r.1 }, typeError f r.2)
  | .TLSSkipVerifyCamel =>
    let r := decodeBool aux.TLSSkipVerifyCamel v
    ({ aux with TLSSkipVerifyCamel := r.1 }, typeError f r.2)
  | .ServiceIDCamel =>
    let r := decodeString aux.ServiceIDCamel v
    ({ aux with ServiceIDCamel := r.1 }, typeError f r.2)
  | .ID =>
    let r := decodeString aux.Alias.ID v
    ({ aux with Alias := { aux.Alias with ID := r.1 } }, typeError f r.2)
  | .Name =>
    let r := decodeString aux.Alias.Name v
    ({ aux with Alias := { aux.Alias with Name := r.1 } }, typeError f r.2)
  | .Notes =>
    let r := decodeString aux.Alias.Notes v
    ({ aux with Alias := { aux.Alias with Notes := r.1 } }, typeError f r.2)
  | .ServiceID =>
    let r := decodeString aux.Alias.ServiceID v
    ({ aux with Alias := { aux.Alias with ServiceID := r.1 } }, typeError f r.2)
  | .Token =>
    let r := decodeString aux.Alias.Token v
    ({ aux with Alias := { aux.Alias with Token := r.1 } }, typeError f r.2)
  | .Status =>
    let r := decodeString aux.Alias.Status v
    ({ aux with Alias := { aux.Alias with Status := r.1 } }, typeError f r.2)
  | .ScriptArgs =>
    let r := decodeStrings (aux.Alias.ScriptArgs, aux.ScriptArgsSpare) v
    ({ aux with
       Alias := { aux.Alias with ScriptArgs := r.1.1 }
       ScriptArgsSpare := r.1.2 }, typeError f r.2)
  | .HTTP =>
    let r := decodeString aux.Alias.HTTP v
    ({ aux with Alias := { aux.Alias with HTTP := r.1 } }, typeError f r.2)
  | .Header =>
    let r := decodeHeader aux.Alias.Header v
    ({ aux with Alias := { aux.Alias with Header := r.1 } }, typeError f r.2)
  | .Method =>
    let r := decodeString aux.Alias.Method v
    ({ aux with Alias := { aux.Alias with Method := r.1 } }, typeError f r.2)
  | .TCP =>
    let r := decodeString aux.Alias.TCP v
    ({ aux with Alias := { aux.Alias with TCP := r.1 } }, typeError f r.2)
  | .DockerContainerID =>
    let r := decodeString aux.Alias.DockerContainerID v
    ({ aux with Alias := { aux.Alias with DockerContainerID := r.1 } }, typeError f r.2)
  | .Shell =>
    let r := decodeString aux.Alias.Shell v
    ({ aux with Alias := { aux.Alias with Shell := r.1 } }, typeError f r.2)
  | .GRPC =>
    let r := decodeString aux.Alias.GRPC v
    ({ aux with Alias := { aux.Alias with GRPC := r.1 } }, typeError f r.2)
  | .GRPCUseTLS =>
    let r := decodeBool aux.Alias.GRPCUseTLS v
    ({ aux with Alias := { aux.Alias with GRPCUseTLS := r.1 } }, typeError f r.2)
  | .TLSSkipVerify =>
    let r := decodeBool aux.Alias.TLSSkipVerify v
    ({ aux with Alias := { aux.Alias with TLSSkipVerify := r.1 } }, typeError f r.2)
  | .AliasNode =>
    let r := decodeString aux.Alias.AliasNode v
    ({ aux with Alias := { aux.Alias with AliasNode := r.1 } }, typeError f r.2)
  | .AliasService =>
    let r := decodeString aux.Alias.AliasService v
    ({ aux with Alias := { aux.Alias with AliasService := r.1 } }, typeError f r.2)
  | .SuccessBeforePassing =>
    let r := decodeInt aux.Alias.SuccessBeforePassing v
    ({ aux with Alias := { aux.Alias with SuccessBeforePassing := r.1 } }, typeError f r.2)
  | .FailuresBeforeCritical =>
    let r := decodeInt aux.Alias.FailuresBeforeCritical v
    ({ aux with Alias := { aux.Alias with FailuresBeforeCritical := r.1 } }, typeError f r.2)
  | .OutputMaxSize =>
    let r := decodeInt aux.Alias.OutputMaxSize v
    ({ aux with Alias := { aux.Alias with OutputMaxSize := r.1 } }, typeError f r.2)

/-- One member `key: v` of the document: decoded into the field the key names, skipped
when the key names no field. -/
def decodeMember (st : Aux × Option Error) (kv : String × JSON) : Aux × Option Error :=
  match findField kv.1 with
  | none => st
  | some f =>
    let r := decodeField f kv.2 st.1
    (r.1, saveError st.2 r.2)

/-- The call `json.Unmarshal(data, &aux)` of line 67 on a document whose top level is
an object: the members are decoded one after the other; a type error does not stop the
decoding, the first one is returned at the end. -/
def jsonUnmarshal (data : Doc) (aux : Aux) : Aux × Option Error :=
  data.foldl decodeMember (aux, none)

/-! ## The decoder -/

/-- One `switch v := raw.(type)` block of lines 93–100, 103–110, 113–120 and 123–130:
a string is parsed by `time.ParseDuration` (whose result, zero on error, is assigned
before the error is tested), a float64 is converted, any other value leaves the
field as it is. -/
def parseSpecial (pd : String → Except String Int) (raw : Raw) (old : Int) :
    Int × Option Error :=
  match raw with
  | .string v =>
    match pd v with
    | .ok d => (d, none)
    | .error msg => (0, some (.parseDuration msg))
  | .float64 v => (v.toInt64, none)
  | _ => (old, none)

/-- Lines 71–89, "Translate Fields", on the overlay (the record `t` is `aux.Alias`):
each `if` of the source assigns one field, which keeps its value when the test fails. -/
def translateFields (aux : Aux) : Aux :=
  let t := aux.Alias
  let deregister :=
    if aux.DeregisterCriticalServiceAfter.isNil then aux.DeregisterCriticalServiceAfterCamel
    else aux.DeregisterCriticalServiceAfter
  let scriptArgs := if t.ScriptArgs.isNone then aux.ArgsCamel else t.ScriptArgs
  let scriptArgs := if scriptArgs.isNone then aux.ScriptArgsCamel else scriptArgs
  let dockerContainerID :=
    if t.DockerContainerID = "" then aux.DockerContainerIDCamel else t.DockerContainerID
  let tlsSkipVerify := if aux.TLSSkipVerifyCamel then aux.TLSSkipVerifyCamel else t.TLSSkipVerify
  let serviceID := if t.ServiceID = "" then aux.ServiceIDCamel else t.ServiceID
  { aux with
    DeregisterCriticalServiceAfter := deregister
    Alias :=
      { t with
        ScriptArgs := scriptArgs
        DockerContainerID := dockerContainerID
        TLSSkipVerify := tlsSkipVerify
        ServiceID := serviceID } }

/-- Lines 91–133, "Parse special values": the four duration blocks in order, each
returning at its first error.  As in the source, the blocks guarded by `aux.Interval`
and `aux.Timeout` switch on `aux.TTL`. -/
def parseSpecialValues (pd : String → Except String Int) (aux : Aux) :
    CheckDefinition × Option Error :=
  let t := aux.Alias
  let i := if !aux.Interval.isNil then parseSpecial pd aux.TTL t.Interval else (t.Interval, none)
  match i.2 with
  | some err => ({ t with Interval := i.1 }, some err)
  | none =>
  let o := if !aux.Timeout.isNil then parseSpecial pd aux.TTL t.Timeout else (t.Timeout, none)
  match o.2 with
  | some err => ({ t with Interval := i.1, Timeout := o.1 }, some err)
  | none =>
  let l := if !aux.TTL.isNil then parseSpecial pd aux.TTL t.TTL else (t.TTL, none)
  match l.2 with
  | some err => ({ t with Interval := i.1, Timeout := o.1, TTL := l.1 }, some err)
  | none =>
  let d :=
    if !aux.DeregisterCriticalServiceAfter.isNil then
      parseSpecial pd aux.DeregisterCriticalServiceAfter t.DeregisterCriticalServiceAfter
    else (t.DeregisterCriticalServiceAfter, none)
  ({ t with Interval := i.1, Timeout := o.1, TTL := l.1,
            DeregisterCriticalServiceAfter := d.1 }, d.2)

/-- The method `func (t *CheckDefinition) UnmarshalJSON(data []byte) (err error)` (lines 46–134),
with `time.ParseDuration` as the parameter `pd`.  The result is the record `t` as the
call leaves it, and the error returned (`none` for `nil`).  The slice `t.ScriptArgs` of
the target is taken with no stale elements beyond its length, as in a fresh record. -/
def CheckDefinition.UnmarshalJSON (pd : String → Except String Int) (t : CheckDefinition)
    (data : Doc) : CheckDefinition × Option Error :=
  let r := jsonUnmarshal data { Alias := t }
  match r.2 with
  | some err => (r.1.Alias, some err)
  | none => parseSpecialValues pd (translateFields r.1)

/-! ## The projections -/

/-- Modelled from the spec: the constant `api.HealthCritical` of the `api` package,
"the fixed default \"critical\" status constant". -/
def api.HealthCritical : String := "critical"

/-- Modelled from the spec: the fields of the health view `HealthCheck` that the
projection sets (the struct is declared in another file of the package): owning node,
check id, name, status, notes, owning service id. -/
structure HealthCheck where
  Node : String := ""
  CheckID : String := ""
  Name : String := ""
  Status : String := ""
  Notes : String := ""
  ServiceID : String := ""
  deriving DecidableEq, Repr

/-- Modelled from the spec: the fields of the check-specification view `CheckType`
that the projection sets (the struct is declared in another file of the package). -/
structure CheckType where
  CheckID : String := ""
  Name : String := ""
  Status : String := ""
  Notes : String := ""
  ScriptArgs : Option (List String) := none
  HTTP : String := ""
  Header : Option (List (String × Option (List String))) := none
  Method : String := ""
  TCP : String := ""
  Interval : Int := 0
  AliasNode : String := ""
  AliasService : String := ""
  DockerContainerID : String := ""
  Shell : String := ""
  GRPC : String := ""
  GRPCUseTLS : Bool := false
  TLSSkipVerify : Bool := false
  Timeout : Int := 0
  TTL : Int := 0
  SuccessBeforePassing : Int := 0
  FailuresBeforeCritical : Int := 0
  DeregisterCriticalServiceAfter : Int := 0
  OutputMaxSize : Int := 0
  deriving DecidableEq, Repr

/-- The method `func (c *CheckDefinition) HealthCheck(node string) *HealthCheck` (lines 136–152).
The receiver is a pointer: the result is the view together with the record `c` as the
call leaves it. -/
def CheckDefinition.HealthCheck (c : CheckDefinition) (node : String) :
    structs.HealthCheck × CheckDefinition :=
  let health : structs.HealthCheck :=
    { Node := node
      CheckID := c.ID
      Name := c.Name
      Status := api.HealthCritical
      Notes := c.Notes
      ServiceID := c.ServiceID }
  let health := if c.Status ≠ "" then { health with Status := c.Status } else health
  let health :=
    if health.CheckID = "" ∧ health.Name ≠ "" then { health with CheckID := health.Name }
    else health
  (health, c)

/-- The method `func (c *CheckDefinition) CheckType() *CheckType` (lines 154–181). -/
def CheckDefinition.CheckType (c : CheckDefinition) : structs.CheckType :=
  { CheckID := c.ID
    Name := c.Name
    Status := c.Status
    Notes := c.Notes
    ScriptArgs := c.ScriptArgs
    AliasNode := c.AliasNode
    AliasService := c.AliasService
    HTTP := c.HTTP
    GRPC := c.GRPC
    GRPCUseTLS := c.GRPCUseTLS
    Header := c.Header
    Method := c.Method
    OutputMaxSize := c.OutputMaxSize
    TCP := c.TCP
    Interval := c.Interval
    DockerContainerID := c.DockerContainerID
    Shell := c.Shell
    TLSSkipVerify := c.TLSSkipVerify
    Timeout := c.Timeout
    TTL := c.TTL
    SuccessBeforePassing := c.SuccessBeforePassing
    FailuresBeforeCritical := c.FailuresBeforeCritical
    DeregisterCriticalServiceAfter := c.DeregisterCriticalServiceAfter }

/-! ## Documents: what a key holds -/

/-- The values of the members of a document whose key names the field `f`, in order. -/
def Doc.values (data : Doc) (f : Field) : List JSON :=
  data.filterMap fun kv => if findField kv.1 = some f then some kv.2 else none

/-- The structural parse accepts the document: `json.Unmarshal` into the overlay of a
fresh record returns no error. -/
def Doc.accepted (data : Doc) : Bool :=
  (jsonUnmarshal data {}).2.isNone

/-- What a key of type `bool` holds for the decoder: the last boolean given for it,
`false` when there is none (an absent key, or `null`). -/
def Doc.boolAt (data : Doc) (f : Field) : Bool :=
  (data.values f).foldl (fun old v => (decodeBool old v).1) false

/-- What a key of type `string` holds for the decoder: the last string given for it,
the empty string when there is none. -/
def Doc.stringAt (data : Doc) (f : Field) : String :=
  (data.values f).foldl (fun old v => (decodeString old v).1) ""

/-- What a key of type `[]string` holds for the decoder: the slice left by decoding the
values given for the key, one after the other, into a nil slice; `none` is the nil
slice of an absent key or of `null`. -/
def Doc.stringsAt (data : Doc) (f : Field) : Option (List String) :=
  ((data.values f).foldl (fun old v => (decodeStrings old v).1) (none, [])).1

/-- What a raw slot holds for the decoder: the value of the last member given for its
key (of the one before, when the last is a number outside the float64 range), nil
when there is none. -/
def Doc.rawAt (data : Doc) (f : Field) : Raw :=
  (data.values f).foldl (fun old v => (decodeInterface old v).1) .nil

/-- The type error of one member of a document, if it has one. -/
def memberError (kv : String × JSON) : Option Error :=
  match findField kv.1 with
  | none => none
  | some f => (decodeField f kv.2 {}).2

/-- The integer `n` is a float64: its magnitude is `m * 2 ^ k` with `m` below `2 ^ 53`. -/
def Float64Exact (n : Int) : Prop :=
  ∃ m k : Nat, n.natAbs = m * 2 ^ k ∧ m < 2 ^ 53

/-- A stand-in for `time.ParseDuration` on literals of whole seconds, `"<digits>s"`,
used to instantiate the parameter `pd` in examples. -/
def parseSeconds (s : String) : Except String Int :=
  match s.toList.reverse with
  | 's' :: ds =>
    if ds ≠ [] ∧ ds.all Char.isDigit then
      .ok ((ds.reverse.foldl (fun n c => 10 * n + (c.toNat - 48)) 0 : Nat) * 1000000000)
    else .error ("time: invalid duration " ++ s)
  | _ => .error ("time: invalid duration " ++ s)

/-- The document without the members of the alternate key
`deregister_critical_service_after`. -/
def Doc.withoutAlternateDeregister (data : Doc) : Doc :=
  data.filter fun kv => decide (findField kv.1 ≠ some .DeregisterCriticalServiceAfterCamel)

/-- The overlay with the slot of `deregister_critical_service_after` reset to nil. -/
def Aux.clearDeregisterCamel (a : Aux) : Aux :=
  { a with DeregisterCriticalServiceAfterCamel := .nil }

/-! ## The two dialects -/

/-- The alternate spelling of the primary key of an aliased field (`useArgs` chooses
between `args` and `script_args` for the script arguments); any other key is kept. -/
def alternateKey (useArgs : Bool) (key : String) : String :=
  if key = "ScriptArgs" then (if useArgs then "args" else "script_args")
  else if key = "DockerContainerID" then "docker_container_id"
  else if key = "TLSSkipVerify" then "tls_skip_verify"
  else if key = "ServiceID" then "service_id"
  else if key = "DeregisterCriticalServiceAfter" then "deregister_critical_service_after"
  else key

/-- The document rewritten in the alternate keys, the values unchanged. -/
def Doc.toAlternate (useArgs : Bool) (data : Doc) : Doc :=
  data.map fun kv => (alternateKey useArgs kv.1, kv.2)

/-- The six slots of the alternate keys. -/
def Field.isAlternate : Field → Bool
  | .ArgsCamel | .ScriptArgsCamel | .DeregisterCriticalServiceAfterCamel
  | .DockerContainerIDCamel | .TLSSkipVerifyCamel | .ServiceIDCamel => true
  | _ => false

/-- The five fields that have an alternate key. -/
def Field.isAliased : Field → Bool
  | .ScriptArgs | .DockerContainerID | .TLSSkipVerify | .ServiceID
  | .DeregisterCriticalServiceAfter => true
  | _ => false

/-- A member that does not name an aliased field by anything but its primary key: its
key names no alternate slot, and names one of the five aliased fields only when it is
spelled exactly as the primary key. -/
def primaryMember (kv : String × JSON) : Bool :=
  match findField kv.1 with
  | none => true
  | some f => !f.isAlternate && (!f.isAliased || kv.1 == f.key)

/-- The document uses only the primary keys for the aliased fields. -/
def Doc.primaryOnly (data : Doc) : Bool :=
  data.all primaryMember

/-- The slot the alternate key of a field decodes into. -/
def Field.toAlternate (useArgs : Bool) : Field → Field
  | .ScriptArgs => if useArgs then .ArgsCamel else .ScriptArgsCamel
  | .DockerContainerID => .DockerContainerIDCamel
  | .TLSSkipVerify => .TLSSkipVerifyCamel
  | .ServiceID => .ServiceIDCamel
  | .DeregisterCriticalServiceAfter => .DeregisterCriticalServiceAfterCamel
  | f => f

/-- The overlay that holds in the alternate slots what `a` holds in the primary fields
of the aliased fields, and the zero value in these. -/
def Aux.toAlternate (useArgs : Bool) (a : Aux) : Aux :=
  { Interval := a.Interval
    Timeout := a.Timeout
    TTL := a.TTL
    DeregisterCriticalServiceAfter := .nil
    ArgsCamel := if useArgs then a.Alias.ScriptArgs else none
    ScriptArgsCamel := if useArgs then none else a.Alias.ScriptArgs
    DeregisterCriticalServiceAfterCamel := a.DeregisterCriticalServiceAfter
    DockerContainerIDCamel := a.Alias.DockerContainerID
    TLSSkipVerifyCamel := a.Alias.TLSSkipVerify
    ServiceIDCamel := a.Alias.ServiceID
    Alias :=
      { a.Alias with
        ScriptArgs := none
        DockerContainerID := ""
        TLSSkipVerify := false
        ServiceID := "" }
    ScriptArgsSpare := []
    ArgsCamelSpare := if useArgs then a.ScriptArgsSpare else []
    ScriptArgsCamelSpare := if useArgs then [] else a.ScriptArgsSpare }

/-! ## Raw slots and malformed literals -/

/-- The raw value is a string that `time.ParseDuration` rejects. -/
def Raw.malformed (pd : String → Except String Int) : Raw → Bool
  | .string s =>
    match pd s with
    | .ok _ => false
    | .error _ => true
  | _ => false

/-- The raw value is neither nil, a string nor a number: it is a boolean, an array or
an object. -/
def Raw.isOther : Raw → Bool
  | .bool _ | .slice | .map => true
  | _ => false

/-- The raw slot the deregister block reads: what the primary key
`DeregisterCriticalServiceAfter` holds when that is not nil, else what the alternate
key `deregister_critical_service_after` holds. -/
def Doc.effectiveDeregister (data : Doc) : Raw :=
  if (data.rawAt .DeregisterCriticalServiceAfter).isNil then
    data.rawAt .DeregisterCriticalServiceAfterCamel
  else data.rawAt .DeregisterCriticalServiceAfter

/-! ## The fields of the record and the keys that feed them -/

/-- The field of the record a slot feeds: an alternate slot feeds the aliased field,
any other slot the field of its own name. -/
def Field.primary : Field → Field
  | .ArgsCamel | .ScriptArgsCamel => .ScriptArgs
  | .DeregisterCriticalServiceAfterCamel => .DeregisterCriticalServiceAfter
  | .DockerContainerIDCamel => .DockerContainerID
  | .TLSSkipVerifyCamel => .TLSSkipVerify
  | .ServiceIDCamel => .ServiceID
  | f => f

/-- The slots that feed the field of the record that `f` names: the slot of its primary
key and, for an aliased field, the slots of its alternate keys. -/
def Field.sources (f : Field) : List Field :=
  match f.primary with
  | .ScriptArgs => [.ScriptArgs, .ArgsCamel, .ScriptArgsCamel]
  | .DockerContainerID => [.DockerContainerID, .DockerContainerIDCamel]
  | .TLSSkipVerify => [.TLSSkipVerify, .TLSSkipVerifyCamel]
  | .ServiceID => [.ServiceID, .ServiceIDCamel]
  | .DeregisterCriticalServiceAfter =>
    [.DeregisterCriticalServiceAfter, .DeregisterCriticalServiceAfterCamel]
  | g => [g]

/-- The two records agree on the field of the record that `f` names. -/
def CheckDefinition.agreeOn (f : Field) (a b : CheckDefinition) : Prop :=
  match f.primary with
  | .ID => a.ID = b.ID
  | .Name => a.Name = b.Name
  | .Notes => a.Notes = b.Notes
  | .ServiceID => a.ServiceID = b.ServiceID
  | .Token => a.Token = b.Token
  | .Status => a.Status = b.Status
  | .ScriptArgs => a.ScriptArgs = b.ScriptArgs
  | .HTTP => a.HTTP = b.HTTP
  | .Header => a.Header = b.Header
  | .Method => a.Method = b.Method
  | .TCP => a.TCP = b.TCP
  | .Interval => a.Interval = b.Interval
  | .DockerContainerID => a.DockerContainerID = b.DockerContainerID
  | .Shell => a.Shell = b.Shell
  | .GRPC => a.GRPC = b.GRPC
  | .GRPCUseTLS => a.GRPCUseTLS = b.GRPCUseTLS
  | .TLSSkipVerify => a.TLSSkipVerify = b.TLSSkipVerify
  | .AliasNode => a.AliasNode = b.AliasNode
  | .AliasService => a.AliasService = b.AliasService
  | .Timeout => a.Timeout = b.Timeout
  | .TTL => a.TTL = b.TTL
  | .SuccessBeforePassing => a.SuccessBeforePassing = b.SuccessBeforePassing
  | .FailuresBeforeCritical => a.FailuresBeforeCritical = b.FailuresBeforeCritical
  | .DeregisterCriticalServiceAfter => a.DeregisterCriticalServiceAfter = b.DeregisterCriticalServiceAfter
  | .OutputMaxSize => a.OutputMaxSize = b.OutputMaxSize
  | _ => True

/-! ## Serialising a record -/

/-- The JSON value of a `[]string`: `null` for the nil slice, else the array of its
strings. -/
def encodeStrings : Option (List String) → JSON
  | none => .null
  | some xs => .arr (xs.map JSON.str)

/-- The JSON value of a `map[string][]string`: `null` for the nil map, else the object
of its entries, in increasing order of the keys. -/
def encodeHeader : Option (List (String × Option (List String))) → JSON
  | none => .null
  | some m => .obj (m.map fun kv => (kv.1, encodeStrings kv.2))

/-- The document that serialises a record: every field under its primary key, in the
order of the struct, each duration and each count as its integer. -/
def CheckDefinition.marshal (r : CheckDefinition) : Doc :=
  [("ID", .str r.ID),
   ("Name", .str r.Name),
   ("Notes", .str r.Notes),
   ("ServiceID", .str r.ServiceID),
   ("Token", .str r.Token),
   ("Status", .str r.Status),
   ("ScriptArgs", encodeStrings r.ScriptArgs),
   ("HTTP", .str r.HTTP),
   ("Header", encodeHeader r.Header),
   ("Method", .str r.Method),
   ("TCP", .str r.TCP),
   ("Interval", .num (.int r.Interval)),
   ("DockerContainerID", .str r.DockerContainerID),
   ("Shell", .str r.Shell),
   ("GRPC", .str r.GRPC),
   ("GRPCUseTLS", .bool r.GRPCUseTLS),
   ("TLSSkipVerify", .bool r.TLSSkipVerify),
   ("AliasNode", .str r.AliasNode),
   ("AliasService", .str r.AliasService),
   ("Timeout", .num (.int r.Timeout)),
   ("TTL", .num (.int r.TTL)),
   ("SuccessBeforePassing", .num (.int r.SuccessBeforePassing)),
   ("FailuresBeforeCritical", .num (.int r.FailuresBeforeCritical)),
   ("DeregisterCriticalServiceAfter", .num (.int r.DeregisterCriticalServiceAfter)),
   ("OutputMaxSize", .num (.int r.OutputMaxSize))]

/-- The integer lies in the int64 range. -/
def inInt64 (n : Int) : Prop :=
  -(2 : Int) ^ 63 ≤ n ∧ n < (2 : Int) ^ 63

/-! ## Integers that are float64 values -/

theorem bitLenAux_spec (fuel : Nat) : ∀ n, n ≤ fuel →
    n < 2 ^ bitLenAux fuel n ∧ (n ≠ 0 → 2 ^ (bitLenAux fuel n - 1) ≤ n) := by
  induction fuel with
  | zero =>
    intro n hn
    have : n = 0 := by omega
    subst this
    simp [bitLenAux]
  | succ fuel ih =>
    intro n hn
    by_cases h0 : n = 0
    · subst h0; simp [bitLenAux]
    · have hle : n / 2 ≤ fuel := by omega
      obtain ⟨hlt, hge⟩ := ih (n / 2) hle
      simp only [bitLenAux, h0, if_false, Nat.add_sub_cancel]
      constructor
      · rw [pow_succ]; omega
      · intro _
        by_cases h2 : n / 2 = 0
        · have : bitLenAux fuel (n / 2) = 0 := by
            rw [h2]; cases fuel <;> simp [bitLenAux]
          rw [this]; simp; omega
        · have h1 := hge h2
          have hpos : 1 ≤ bitLenAux fuel (n / 2) := by
            by_contra hc
            have : bitLenAux fuel (n / 2) = 0 := by omega
            rw [this] at hlt
            simp at hlt
            exact h2 hlt
          have : 2 ^ bitLenAux fuel (n / 2) = 2 * 2 ^ (bitLenAux fuel (n / 2) - 1) := by
            conv_lhs => rw [← Nat.sub_add_cancel hpos]
            rw [pow_succ]; ring
          omega

theorem bitLen_lt (n : Nat) : n < 2 ^ bitLen n := (bitLenAux_spec n n le_rfl).1

theorem bitLen_le (n : Nat) (h : n ≠ 0) : 2 ^ (bitLen n - 1) ≤ n :=
  (bitLenAux_spec n n le_rfl).2 h

theorem bitLen_pos (n : Nat) (h : n ≠ 0) : 1 ≤ bitLen n := by
  by_contra hc
  have h0 : bitLen n = 0 := by omega
  have := bitLen_lt n
  rw [h0] at this
  simp at this
  exact h this

theorem roundHalfEven_of_dvd (num den : Nat) (hd : 0 < den) (h : den ∣ num) :
    roundHalfEven num den = num / den := by
  unfold roundHalfEven
  have : num % den = 0 := Nat.mod_eq_zero_of_dvd h
  simp [this, hd]


theorem floorLog2_one (n : Nat) (h : n ≠ 0) : floorLog2 n 1 = (bitLen n : Int) - 1 := by
  have h1 : bitLen 1 = 1 := by decide
  have hp := bitLen_pos n h
  have hlo := bitLen_le n h
  have hd : (0 : Int) ≤ (bitLen n : Int) - 1 := by omega
  have ht : ((bitLen n : Int) - 1).toNat = bitLen n - 1 := by omega
  unfold floorLog2
  simp only [h1, Nat.cast_one, hd, if_true, ht, one_mul, hlo, decide_True]

theorem roundFloat64_exact (n m k : Nat) (hn : n = m * 2 ^ k) (hm : m < 2 ^ 53)
    (hb : n ≤ 2 ^ 63) :
    ∃ mant e, roundFloat64 n 1 = some (mant, e) ∧
      (if 0 ≤ e then mant * 2 ^ e.toNat else mant / 2 ^ (-e).toNat) = n := by
  by_cases h0 : n = 0
  · exact ⟨0, 0, by simp [roundFloat64, h0], by simp [h0]⟩
  · have hp := bitLen_pos n h0
    have hlo := bitLen_le n h0
    have ha : bitLen n ≤ 64 := by
      have : 2 ^ (bitLen n - 1) < 2 ^ 64 := by
        calc 2 ^ (bitLen n - 1) ≤ n := hlo
          _ ≤ 2 ^ 63 := hb
          _ < 2 ^ 64 := by norm_num
      have := (Nat.pow_lt_pow_iff_right (a := 2) (by norm_num)).1 this
      omega
    have he : max (floorLog2 n 1 - 52) (-1074) = (bitLen n : Int) - 53 := by
      rw [floorLog2_one n h0]; omega
    by_cases hc : 53 ≤ bitLen n
    · have hpos : (0 : Int) ≤ (bitLen n : Int) - 53 := by omega
      have ht : ((bitLen n : Int) - 53).toNat = bitLen n - 53 := by omega
      have hk : bitLen n - 53 ≤ k := by
        have : 2 ^ (bitLen n - 1) < 2 ^ (53 + k) := by
          calc 2 ^ (bitLen n - 1) ≤ n := hlo
            _ = m * 2 ^ k := hn
            _ < 2 ^ 53 * 2 ^ k := Nat.mul_lt_mul_of_pos_right hm (by positivity)
            _ = 2 ^ (53 + k) := by rw [pow_add]
        have := (Nat.pow_lt_pow_iff_right (a := 2) (by norm_num)).1 this
        omega
      have h2 : 2 ^ k ∣ n := ⟨m, by rw [hn]; ring⟩
      have hdvd : 2 ^ (bitLen n - 53) ∣ n := (pow_dvd_pow 2 hk).trans h2
      have hr : roundHalfEven n (1 * 2 ^ (bitLen n - 53)) = n / 2 ^ (bitLen n - 53) := by
        rw [one_mul]
        exact roundHalfEven_of_dvd n _ (by positivity) hdvd
      refine ⟨n / 2 ^ (bitLen n - 53), (bitLen n : Int) - 53, ?_, ?_⟩
      · have hno : ¬ ((971 : Int) < (bitLen n : Int) - 53 ∨
            ((bitLen n : Int) - 53 = 971 ∧ 2 ^ 53 ≤ n / 2 ^ (bitLen n - 53))) := by
          omega
        simp only [roundFloat64, h0, if_false, he, hpos, if_true, ht, hr, hno]
      · simp only [hpos, if_true, ht]
        exact Nat.div_mul_cancel hdvd
    · have hneg : ¬ (0 : Int) ≤ (bitLen n : Int) - 53 := by omega
      have ht : (-((bitLen n : Int) - 53)).toNat = 53 - bitLen n := by omega
      have hr : roundHalfEven (n * 2 ^ (53 - bitLen n)) 1 = n * 2 ^ (53 - bitLen n) := by
        rw [roundHalfEven_of_dvd _ 1 (by norm_num) (one_dvd _), Nat.div_one]
      refine ⟨n * 2 ^ (53 - bitLen n), (bitLen n : Int) - 53, ?_, ?_⟩
      · have hno : ¬ ((971 : Int) < (bitLen n : Int) - 53 ∨
            ((bitLen n : Int) - 53 = 971 ∧ 2 ^ 53 ≤ n * 2 ^ (53 - bitLen n))) := by
          omega
        simp only [roundFloat64, h0, if_false, he, hneg, ht, hr, hno]
      · simp only [hneg, if_false, ht]
        exact Nat.mul_div_cancel n (by positivity)

theorem toFloat64_int_exact (N : Int) (hx : Float64Exact N)
    (hlo : -(2 : Int) ^ 63 ≤ N) (hhi : N < (2 : Int) ^ 63) :
    ∃ f, (Number.int N).toFloat64 = some f ∧ f.toInt64 = N := by
  obtain ⟨m, k, hn, hm⟩ := hx
  have hb : N.natAbs ≤ 2 ^ 63 := by omega
  obtain ⟨mant, e, hr, hv⟩ := roundFloat64_exact N.natAbs m k hn hm hb
  refine ⟨⟨decide (N < 0), mant, e⟩, ?_, ?_⟩
  · simp [Number.toFloat64, hr]
  · unfold Float64.toInt64
    simp only [hv]
    by_cases hneg : N < 0
    · have : -(N.natAbs : Int) = N := by omega
      simp only [hneg, decide_True, if_true, this]
      rw [if_pos ⟨hlo, hhi⟩]
    · have : (N.natAbs : Int) = N := by omega
      simp only [hneg, decide_False, Bool.false_eq_true, if_false, this]
      rw [if_pos ⟨hlo, hhi⟩]

/-! ## The library stage, slot by slot -/

theorem foldl_decodeMember_proj {α : Type} (π : Aux → α) (f : Field) (d : α → JSON → α)
    (h : ∀ g v a, π (decodeField g v a).1 = if g = f then d (π a) v else π a)
    (data : Doc) (st : Aux × Option Error) :
    π (data.foldl decodeMember st).1 = (Doc.values data f).foldl d (π st.1) := by
  induction data generalizing st with
  | nil => rfl
  | cons kv rest ih =>
    rw [List.foldl_cons, ih]
    unfold Doc.values decodeMember
    cases hk : findField kv.1 with
    | none => simp [List.filterMap_cons, hk]
    | some g =>
      by_cases hg : g = f
      · subst hg
        simp [List.filterMap_cons, hk, h]
      · simp [List.filterMap_cons, hk, h, hg]

theorem jsonUnmarshal_TLSSkipVerify (data : Doc) :
    (jsonUnmarshal data {}).1.Alias.TLSSkipVerify = data.boolAt .TLSSkipVerify :=
  foldl_decodeMember_proj (fun a => a.Alias.TLSSkipVerify) .TLSSkipVerify
    (fun old v => (decodeBool old v).1)
    (by intro g v a; cases g <;> rfl) data _

theorem jsonUnmarshal_TLSSkipVerifyCamel (data : Doc) :
    (jsonUnmarshal data {}).1.TLSSkipVerifyCamel = data.boolAt .TLSSkipVerifyCamel :=
  foldl_decodeMember_proj (fun a => a.TLSSkipVerifyCamel) .TLSSkipVerifyCamel
    (fun old v => (decodeBool old v).1)
    (by intro g v a; cases g <;> rfl) data _

theorem jsonUnmarshal_ScriptArgs (data : Doc) :
    (jsonUnmarshal data {}).1.Alias.ScriptArgs = data.stringsAt .ScriptArgs :=
  congrArg Prod.fst
    (foldl_decodeMember_proj (fun a => (a.Alias.ScriptArgs, a.ScriptArgsSpare)) .ScriptArgs
      (fun old v => (decodeStrings old v).1)
      (by intro g v a; cases g <;> rfl) data ({}, none))

theorem jsonUnmarshal_ArgsCamel (data : Doc) :
    (jsonUnmarshal data {}).1.ArgsCamel = data.stringsAt .ArgsCamel :=
  congrArg Prod.fst
    (foldl_decodeMember_proj (fun a => (a.ArgsCamel, a.ArgsCamelSpare)) .ArgsCamel
      (fun old v => (decodeStrings old v).1)
      (by intro g v a; cases g <;> rfl) data ({}, none))

theorem jsonUnmarshal_ScriptArgsCamel (data : Doc) :
    (jsonUnmarshal data {}).1.ScriptArgsCamel = data.stringsAt .ScriptArgsCamel :=
  congrArg Prod.fst
    (foldl_decodeMember_proj (fun a => (a.ScriptArgsCamel, a.ScriptArgsCamelSpare)) .ScriptArgsCamel
      (fun old v => (decodeStrings old v).1)
      (by intro g v a; cases g <;> rfl) data ({}, none))

theorem jsonUnmarshal_ServiceID (data : Doc) :
    (jsonUnmarshal data {}).1.Alias.ServiceID = data.stringAt .ServiceID :=
  foldl_decodeMember_proj (fun a => a.Alias.ServiceID) .ServiceID
    (fun old v => (decodeString old v).1)
    (by intro g v a; cases g <;> rfl) data _

theorem jsonUnmarshal_ServiceIDCamel (data : Doc) :
    (jsonUnmarshal data {}).1.ServiceIDCamel = data.stringAt .ServiceIDCamel :=
  foldl_decodeMember_proj (fun a => a.ServiceIDCamel) .ServiceIDCamel
    (fun old v => (decodeString old v).1)
    (by intro g v a; cases g <;> rfl) data _

theorem jsonUnmarshal_DockerContainerID (data : Doc) :
    (jsonUnmarshal data {}).1.Alias.DockerContainerID = data.stringAt .DockerContainerID :=
  foldl_decodeMember_proj (fun a => a.Alias.DockerContainerID) .DockerContainerID
    (fun old v => (decodeString old v).1)
    (by intro g v a; cases g <;> rfl) data _

theorem jsonUnmarshal_DockerContainerIDCamel (data : Doc) :
    (jsonUnmarshal data {}).1.DockerContainerIDCamel = data.stringAt .DockerContainerIDCamel :=
  foldl_decodeMember_proj (fun a => a.DockerContainerIDCamel) .DockerContainerIDCamel
    (fun old v => (decodeString old v).1)
    (by intro g v a; cases g <;> rfl) data _

theorem jsonUnmarshal_Interval (data : Doc) :
    (jsonUnmarshal data {}).1.Interval = data.rawAt .Interval :=
  foldl_decodeMember_proj (fun a => a.Interval) .Interval
    (fun old v => (decodeInterface old v).1)
    (by intro g v a; cases g <;> rfl) data _

theorem jsonUnmarshal_Timeout (data : Doc) :
    (jsonUnmarshal data {}).1.Timeout = data.rawAt .Timeout :=
  foldl_decodeMember_proj (fun a => a.Timeout) .Timeout
    (fun old v => (decodeInterface old v).1)
    (by intro g v a; cases g <;> rfl) data _

theorem jsonUnmarshal_TTL (data : Doc) :
    (jsonUnmarshal data {}).1.TTL = data.rawAt .TTL :=
  foldl_decodeMember_proj (fun a => a.TTL) .TTL
    (fun old v => (decodeInterface old v).1)
    (by intro g v a; cases g <;> rfl) data _

theorem jsonUnmarshal_DeregisterCriticalServiceAfter (data : Doc) :
    (jsonUnmarshal data {}).1.DeregisterCriticalServiceAfter = data.rawAt .DeregisterCriticalServiceAfter :=
  foldl_decodeMember_proj (fun a => a.DeregisterCriticalServiceAfter) .DeregisterCriticalServiceAfter
    (fun old v => (decodeInterface old v).1)
    (by intro g v a; cases g <;> rfl) data _

theorem jsonUnmarshal_DeregisterCriticalServiceAfterCamel (data : Doc) :
    (jsonUnmarshal data {}).1.DeregisterCriticalServiceAfterCamel = data.rawAt .DeregisterCriticalServiceAfterCamel :=
  foldl_decodeMember_proj (fun a => a.DeregisterCriticalServiceAfterCamel) .DeregisterCriticalServiceAfterCamel
    (fun old v => (decodeInterface old v).1)
    (by intro g v a; cases g <;> rfl) data _

/-! ## The decoder after the library stage -/

theorem unmarshalJSON_of_accepted (pd : String → Except String Int) (data : Doc)
    (h : data.accepted = true) :
    CheckDefinition.UnmarshalJSON pd {} data =
      parseSpecialValues pd (translateFields (jsonUnmarshal data {}).1) := by
  unfold Doc.accepted at h
  unfold CheckDefinition.UnmarshalJSON
  cases hr : (jsonUnmarshal data {}).2 with
  | none => simp only [hr]
  | some e => rw [hr] at h; cases h

theorem parseSpecialValues_shape (pd : String → Except String Int) (aux : Aux) :
    ∃ i o l d, (parseSpecialValues pd aux).1 =
      { aux.Alias with Interval := i, Timeout := o, TTL := l,
                       DeregisterCriticalServiceAfter := d } := by
  unfold parseSpecialValues
  simp only []
  split
  · exact ⟨_, _, _, _, rfl⟩
  · split
    · exact ⟨_, _, _, _, rfl⟩
    · split
      · exact ⟨_, _, _, _, rfl⟩
      · exact ⟨_, _, _, _, rfl⟩

theorem translateFields_TLSSkipVerify (aux : Aux) :
    (translateFields aux).Alias.TLSSkipVerify
      = (aux.Alias.TLSSkipVerify || aux.TLSSkipVerifyCamel) := by
  cases h : aux.TLSSkipVerifyCamel <;> simp [translateFields, h]

theorem translateFields_ScriptArgs (aux : Aux) :
    (translateFields aux).Alias.ScriptArgs
      = aux.Alias.ScriptArgs.or (aux.ArgsCamel.or aux.ScriptArgsCamel) := by
  cases h : aux.Alias.ScriptArgs <;> cases h' : aux.ArgsCamel <;>
    simp [translateFields, h, h']

theorem translateFields_ServiceID (aux : Aux) :
    (translateFields aux).Alias.ServiceID
      = if aux.Alias.ServiceID ≠ "" then aux.Alias.ServiceID else aux.ServiceIDCamel := by
  by_cases h : aux.Alias.ServiceID = "" <;> simp [translateFields, h]

theorem translateFields_DockerContainerID (aux : Aux) :
    (translateFields aux).Alias.DockerContainerID
      = if aux.Alias.DockerContainerID ≠ "" then aux.Alias.DockerContainerID
        else aux.DockerContainerIDCamel := by
  by_cases h : aux.Alias.DockerContainerID = "" <;> simp [translateFields, h]

theorem parseSpecialValues_congr (pd : String → Except String Int) (a b : Aux)
    (hI : a.Interval = b.Interval) (hO : a.Timeout = b.Timeout) (hL : a.TTL = b.TTL)
    (hD : a.DeregisterCriticalServiceAfter = b.DeregisterCriticalServiceAfter)
    (hA : a.Alias = b.Alias) :
    parseSpecialValues pd a = parseSpecialValues pd b := by
  unfold parseSpecialValues
  simp only [hI, hO, hL, hD, hA]

/-! ## The alternate key of the deregister-after duration -/

theorem decodeField_clearDeregisterCamel (f : Field) (v : JSON) (a : Aux)
    (hf : f ≠ .DeregisterCriticalServiceAfterCamel) :
    (decodeField f v a).1.clearDeregisterCamel = (decodeField f v a.clearDeregisterCamel).1 := by
  cases f <;> first | rfl | exact absurd rfl hf

theorem foldl_decodeMember_clearDeregisterCamel (data : Doc) (st st' : Aux × Option Error)
    (h : st'.1 = st.1.clearDeregisterCamel) :
    (data.withoutAlternateDeregister.foldl decodeMember st').1
      = (data.foldl decodeMember st).1.clearDeregisterCamel := by
  induction data generalizing st st' with
  | nil => exact h
  | cons kv rest ih =>
    unfold Doc.withoutAlternateDeregister
    rw [List.filter_cons, List.foldl_cons]
    by_cases hk : findField kv.1 = some .DeregisterCriticalServiceAfterCamel
    · simp only [hk, ne_eq, not_true_eq_false, decide_False, Bool.false_eq_true, if_false]
      apply ih
      simp only [decodeMember, hk, h]
      rfl
    · simp only [hk, ne_eq, not_false_eq_true, decide_True, if_true, List.foldl_cons]
      apply ih
      unfold decodeMember
      cases hf : findField kv.1 with
      | none => exact h
      | some f =>
        have hne : f ≠ .DeregisterCriticalServiceAfterCamel := by
          intro e; rw [hf, e] at hk; exact hk rfl
        simp only [h]
        exact (decodeField_clearDeregisterCamel f kv.2 st.1 hne).symm

theorem jsonUnmarshal_withoutAlternateDeregister (data : Doc) :
    (jsonUnmarshal data.withoutAlternateDeregister {}).1
      = (jsonUnmarshal data {}).1.clearDeregisterCamel :=
  foldl_decodeMember_clearDeregisterCamel data _ _ rfl

theorem parseSpecialValues_clearDeregisterCamel (pd : String → Except String Int) (a : Aux)
    (h : a.DeregisterCriticalServiceAfter.isNil = false) :
    parseSpecialValues pd (translateFields a.clearDeregisterCamel)
      = parseSpecialValues pd (translateFields a) := by
  apply parseSpecialValues_congr <;>
    simp [translateFields, Aux.clearDeregisterCamel, h]

/-! ## The duration blocks -/

theorem rawAt_of_values_nil (data : Doc) (f : Field) (h : data.values f = []) :
    data.rawAt f = .nil := by
  unfold Doc.rawAt
  rw [h]
  rfl

theorem rawAt_of_getLast (data : Doc) (f : Field) (v : JSON) (r : Raw)
    (h : (data.values f).getLast? = some v) (hr : ∀ old, (decodeInterface old v).1 = r) :
    data.rawAt f = r := by
  obtain ⟨l, hl⟩ := List.getLast?_eq_some_iff.1 h
  unfold Doc.rawAt
  rw [hl, List.foldl_append]
  exact hr _

theorem parseSpecial_ok (pd : String → Except String Int) (raw : Raw)
    (h : ∀ s, raw = .string s → ∃ d, pd s = .ok d) (old : Int) :
    (parseSpecial pd raw old).2 = none := by
  cases raw with
  | string s =>
    obtain ⟨d, hd⟩ := h s rfl
    simp [parseSpecial, hd]
  | _ => rfl

theorem parseSpecialValues_deregister (pd : String → Except String Int) (aux : Aux)
    (h : ∀ s, aux.TTL = .string s → ∃ d, pd s = .ok d) :
    (parseSpecialValues pd aux).2
        = (if !aux.DeregisterCriticalServiceAfter.isNil then
            parseSpecial pd aux.DeregisterCriticalServiceAfter
              aux.Alias.DeregisterCriticalServiceAfter
           else (aux.Alias.DeregisterCriticalServiceAfter, none)).2 ∧
    (parseSpecialValues pd aux).1.DeregisterCriticalServiceAfter
        = (if !aux.DeregisterCriticalServiceAfter.isNil then
            parseSpecial pd aux.DeregisterCriticalServiceAfter
              aux.Alias.DeregisterCriticalServiceAfter
           else (aux.Alias.DeregisterCriticalServiceAfter, none)).1 := by
  have hT := parseSpecial_ok pd aux.TTL h
  have hi : (if !aux.Interval.isNil then parseSpecial pd aux.TTL aux.Alias.Interval
      else (aux.Alias.Interval, none)).2 = none := by
    split
    · exact hT _
    · rfl
  have ho : (if !aux.Timeout.isNil then parseSpecial pd aux.TTL aux.Alias.Timeout
      else (aux.Alias.Timeout, none)).2 = none := by
    split
    · exact hT _
    · rfl
  have hl : (if !aux.TTL.isNil then parseSpecial pd aux.TTL aux.Alias.TTL
      else (aux.Alias.TTL, none)).2 = none := by
    split
    · exact hT _
    · rfl
  unfold parseSpecialValues
  simp only [hi, ho, hl, and_self]

/-! ## The two dialects, member by member -/

theorem primaryMember_some (kv : String × JSON) (f : Field) (h : primaryMember kv = true)
    (hf : findField kv.1 = some f) :
    f.isAlternate = false ∧ (f.isAliased = true → kv.1 = f.key) := by
  unfold primaryMember at h
  rw [hf] at h
  simp only [Bool.and_eq_true, Bool.not_eq_true', Bool.or_eq_true, beq_iff_eq] at h
  refine ⟨h.1, fun ha => ?_⟩
  rcases h.2 with h' | h'
  · rw [ha] at h'; cases h'
  · exact h'

theorem findField_alternateKey (u : Bool) (kv : String × JSON) (h : primaryMember kv = true) :
    findField (alternateKey u kv.1) = (findField kv.1).map (Field.toAlternate u) := by
  by_cases h1 : kv.1 = "ScriptArgs"
  · rw [h1]; cases u <;> decide
  by_cases h2 : kv.1 = "DockerContainerID"
  · rw [h2]; cases u <;> decide
  by_cases h3 : kv.1 = "TLSSkipVerify"
  · rw [h3]; cases u <;> decide
  by_cases h4 : kv.1 = "ServiceID"
  · rw [h4]; cases u <;> decide
  by_cases h5 : kv.1 = "DeregisterCriticalServiceAfter"
  · rw [h5]; cases u <;> decide
  have hk : alternateKey u kv.1 = kv.1 := by simp [alternateKey, h1, h2, h3, h4, h5]
  rw [hk]
  cases hf : findField kv.1 with
  | none => rfl
  | some f =>
    obtain ⟨ha, hb⟩ := primaryMember_some kv f h hf
    cases f <;> first
      | rfl
      | exact absurd ha (by decide)
      | exact absurd (hb rfl) h1
      | exact absurd (hb rfl) h2
      | exact absurd (hb rfl) h3
      | exact absurd (hb rfl) h4
      | exact absurd (hb rfl) h5

theorem decodeField_toAlternate (u : Bool) (f : Field) (v : JSON) (a : Aux)
    (hf : f.isAlternate = false) :
    (decodeField (f.toAlternate u) v (a.toAlternate u)).1
      = (decodeField f v a).1.toAlternate u := by
  cases u <;> cases f <;> first | exact absurd hf (by decide) | rfl

theorem typeError_isNone (f : Field) (w : Option String) :
    (typeError f w).isNone = w.isNone := by
  cases w <;> rfl

theorem decodeField_toAlternate_isNone (u : Bool) (f : Field) (v : JSON) (a : Aux)
    (hf : f.isAlternate = false) :
    (decodeField (f.toAlternate u) v (a.toAlternate u)).2.isNone
      = (decodeField f v a).2.isNone := by
  cases u <;> cases f <;> first
    | exact absurd hf (by decide)
    | simp [decodeField, Field.toAlternate, typeError_isNone, Aux.toAlternate]

theorem saveError_isNone {ε : Type} (a b : Option ε) :
    (saveError a b).isNone = (a.isNone && b.isNone) := by
  cases a <;> cases b <;> rfl

theorem foldl_decodeMember_toAlternate (u : Bool) (data : Doc)
    (hp : ∀ kv ∈ data, primaryMember kv = true) (st st' : Aux × Option Error)
    (h1 : st'.1 = st.1.toAlternate u) (h2 : st'.2.isNone = st.2.isNone) :
    ((data.toAlternate u).foldl decodeMember st').1
        = (data.foldl decodeMember st).1.toAlternate u ∧
    ((data.toAlternate u).foldl decodeMember st').2.isNone
        = (data.foldl decodeMember st).2.isNone := by
  induction data generalizing st st' with
  | nil => exact ⟨h1, h2⟩
  | cons kv rest ih =>
    have hkv := hp kv (List.mem_cons_self _ _)
    have hrest : ∀ kv' ∈ rest, primaryMember kv' = true :=
      fun kv' hm => hp kv' (List.mem_cons_of_mem _ hm)
    unfold Doc.toAlternate
    rw [List.map_cons, List.foldl_cons, List.foldl_cons]
    apply ih hrest
    · unfold decodeMember
      simp only [findField_alternateKey u kv hkv]
      cases hf : findField kv.1 with
      | none => exact h1
      | some f =>
        have hna : f.isAlternate = false := (primaryMember_some kv f hkv hf).1
        simp only [Option.map_some', h1]
        exact decodeField_toAlternate u f kv.2 st.1 hna
    · unfold decodeMember
      simp only [findField_alternateKey u kv hkv]
      cases hf : findField kv.1 with
      | none => exact h2
      | some f =>
        have hna : f.isAlternate = false := (primaryMember_some kv f hkv hf).1
        simp only [Option.map_some', h1, saveError_isNone, h2,
          decodeField_toAlternate_isNone u f kv.2 st.1 hna]

theorem values_nil_of_primaryOnly (data : Doc) (hp : data.primaryOnly = true) (f : Field)
    (hf : f.isAlternate = true) : data.values f = [] := by
  unfold Doc.values
  rw [List.filterMap_eq_nil_iff]
  intro kv hm
  have hkv : primaryMember kv = true := by
    unfold Doc.primaryOnly at hp
    exact (List.all_eq_true.1 hp) kv hm
  by_cases hk : findField kv.1 = some f
  · have := (primaryMember_some kv f hkv hk).1
    rw [hf] at this
    cases this
  · simp [hk]

theorem parseSpecialValues_toAlternate (pd : String → Except String Int) (u : Bool) (a : Aux)
    (h1 : a.ArgsCamel = none) (h2 : a.ScriptArgsCamel = none)
    (h3 : a.DeregisterCriticalServiceAfterCamel = .nil) (h4 : a.DockerContainerIDCamel = "")
    (h5 : a.TLSSkipVerifyCamel = false) (h6 : a.ServiceIDCamel = "") :
    parseSpecialValues pd (translateFields (a.toAlternate u))
      = parseSpecialValues pd (translateFields a) := by
  apply parseSpecialValues_congr
  · rfl
  · rfl
  · rfl
  · cases hd : a.DeregisterCriticalServiceAfter <;>
      simp [translateFields, Aux.toAlternate, h3, hd, Raw.isNil]
  · obtain ⟨_, _, _, _, _, _, _, _, _, _, t, _, _, _⟩ := a
    obtain ⟨_, _, _, sid, _, _, sa, _, _, _, _, _, dk, _, _, _, tls, _, _, _, _, _, _, _, _⟩ := t
    simp only at h1 h2 h3 h4 h5 h6
    subst h1 h2 h3 h4 h5 h6
    cases u <;> cases sa <;> cases tls <;> by_cases hs : sid = "" <;>
      by_cases hk : dk = "" <;> simp [translateFields, Aux.toAlternate, hs, hk]

/-! ## The duration blocks of `Interval` and `Timeout` -/

/-- C1: a document whose only key is `Interval` (resp. `Timeout`) with the number `N`
decodes without error into a fresh record whose `Interval` (resp. `Timeout`) is left at
zero, whatever `N` is: the block guarded by `aux.Interval` switches on `aux.TTL`, which is
nil here, so no case applies.  The code evaluated at the failing input of the claim. -/
theorem interval_timeout_number_not_read (pd : String → Except String Int) (N : Int) :
    (CheckDefinition.UnmarshalJSON pd {} [("Interval", .num (.int N))]).1.Interval = 0 ∧
    (CheckDefinition.UnmarshalJSON pd {} [("Timeout", .num (.int N))]).1.Timeout = 0 := by
  have hI : findField "Interval" = some .Interval := by decide
  have hT : findField "Timeout" = some .Timeout := by decide
  constructor
  · cases h : (Number.int N).toFloat64 <;>
      simp [CheckDefinition.UnmarshalJSON, jsonUnmarshal, decodeMember, hI, decodeField,
        decodeInterface, typeError, h, saveError, translateFields, parseSpecialValues, parseSpecial,
        Raw.isNil]
  · cases h : (Number.int N).toFloat64 <;>
      simp [CheckDefinition.UnmarshalJSON, jsonUnmarshal, decodeMember, hT, decodeField,
        decodeInterface, typeError, h, saveError, translateFields, parseSpecialValues, parseSpecial,
        Raw.isNil]

/-- C2: a document whose only key is `Interval` (resp. `Timeout`) with a string `s`
decodes into a fresh record whose `Interval` (resp. `Timeout`) is zero, whatever `s`
parses to: the string is never handed to `time.ParseDuration`; and the scenario document
with `"interval": "10s"` and no TTL decodes without error to a record whose `Interval` is
zero.  The code evaluated at the failing inputs of the claim. -/
theorem interval_timeout_literal_not_read (pd : String → Except String Int) (s : String) :
    (CheckDefinition.UnmarshalJSON pd {} [("Interval", .str s)]).1.Interval = 0 ∧
    (CheckDefinition.UnmarshalJSON pd {} [("Timeout", .str s)]).1.Timeout = 0 ∧
    CheckDefinition.UnmarshalJSON pd {}
        [("Name", .str "web"), ("http", .str ""), ("HTTP", .str "http://x"),
          ("interval", .str "10s"), ("script_args", .arr [.str "a", .str "b"])]
      = ({ Name := "web", HTTP := "http://x", ScriptArgs := some ["a", "b"], Interval := 0 },
          none) := by
  have hI : findField "Interval" = some .Interval := by decide
  have hT : findField "Timeout" = some .Timeout := by decide
  refine ⟨?_, ?_, rfl⟩ <;>
    simp [CheckDefinition.UnmarshalJSON, jsonUnmarshal, decodeMember, hI, hT, decodeField,
      decodeInterface, typeError, saveError, translateFields, parseSpecialValues, parseSpecial,
      Raw.isNil]

/-- C3: a document whose only key is `Interval` (resp. `Timeout`) with a string `s`
decodes without error, also when `s` is not a duration literal: the string is never
handed to `time.ParseDuration`.  The code evaluated at the failing input of the claim. -/
theorem interval_timeout_malformed_accepted (pd : String → Except String Int) (s : String) :
    (CheckDefinition.UnmarshalJSON pd {} [("Interval", .str s)]).2 = none ∧
    (CheckDefinition.UnmarshalJSON pd {} [("Timeout", .str s)]).2 = none := by
  have hI : findField "Interval" = some .Interval := by decide
  have hT : findField "Timeout" = some .Timeout := by decide
  constructor <;>
    simp [CheckDefinition.UnmarshalJSON, jsonUnmarshal, decodeMember, hI, hT, decodeField,
      decodeInterface, typeError, saveError, translateFields, parseSpecialValues, parseSpecial,
      Raw.isNil]

/-! ## Dialect transparency -/

/-- C4: for every document that the structural parse accepts and that uses only the
primary keys `ScriptArgs`, `DockerContainerID`, `TLSSkipVerify`, `ServiceID` and
`DeregisterCriticalServiceAfter` for the aliased fields, the document with these keys
renamed to the alternate keys (`args` or `script_args`, `docker_container_id`,
`tls_skip_verify`, `service_id`, `deregister_critical_service_after`) and the values
unchanged decodes into a fresh record with the same outcome: the same error and the
same record. -/
theorem dialect_transparency (pd : String → Except String Int) (useArgs : Bool) (data : Doc)
    (hv : data.accepted = true) (hp : data.primaryOnly = true) :
    CheckDefinition.UnmarshalJSON pd {} (data.toAlternate useArgs)
      = CheckDefinition.UnmarshalJSON pd {} data := by
  have hm : ∀ kv ∈ data, primaryMember kv = true := by
    unfold Doc.primaryOnly at hp
    exact List.all_eq_true.1 hp
  obtain ⟨e1, e2⟩ := foldl_decodeMember_toAlternate useArgs data hm ({}, none) ({}, none)
    (by cases useArgs <;> rfl) rfl
  have e1' : (jsonUnmarshal (data.toAlternate useArgs) {}).1
      = (jsonUnmarshal data {}).1.toAlternate useArgs := e1
  have hv' : (data.toAlternate useArgs).accepted = true := e2.trans hv
  rw [unmarshalJSON_of_accepted pd _ hv', unmarshalJSON_of_accepted pd _ hv, e1']
  apply parseSpecialValues_toAlternate
  · rw [jsonUnmarshal_ArgsCamel]
    unfold Doc.stringsAt
    rw [values_nil_of_primaryOnly data hp .ArgsCamel rfl]
    rfl
  · rw [jsonUnmarshal_ScriptArgsCamel]
    unfold Doc.stringsAt
    rw [values_nil_of_primaryOnly data hp .ScriptArgsCamel rfl]
    rfl
  · rw [jsonUnmarshal_DeregisterCriticalServiceAfterCamel]
    exact rawAt_of_values_nil data _ (values_nil_of_primaryOnly data hp _ rfl)
  · rw [jsonUnmarshal_DockerContainerIDCamel]
    unfold Doc.stringAt
    rw [values_nil_of_primaryOnly data hp .DockerContainerIDCamel rfl]
    rfl
  · rw [jsonUnmarshal_TLSSkipVerifyCamel]
    unfold Doc.boolAt
    rw [values_nil_of_primaryOnly data hp .TLSSkipVerifyCamel rfl]
    rfl
  · rw [jsonUnmarshal_ServiceIDCamel]
    unfold Doc.stringAt
    rw [values_nil_of_primaryOnly data hp .ServiceIDCamel rfl]
    rfl

theorem dialect_transparency_witness :
    Doc.accepted [("Name", .str "web"), ("ScriptArgs", .arr [.str "a", .str "b"]),
        ("DockerContainerID", .str "c1"), ("TLSSkipVerify", .bool true),
        ("ServiceID", .str "s1"), ("DeregisterCriticalServiceAfter", .str "90s"),
        ("TTL", .num (.int 5))] = true ∧
    Doc.primaryOnly [("Name", .str "web"), ("ScriptArgs", .arr [.str "a", .str "b"]),
        ("DockerContainerID", .str "c1"), ("TLSSkipVerify", .bool true),
        ("ServiceID", .str "s1"), ("DeregisterCriticalServiceAfter", .str "90s"),
        ("TTL", .num (.int 5))] = true ∧
    CheckDefinition.UnmarshalJSON parseSeconds {}
        [("Name", .str "web"), ("script_args", .arr [.str "a", .str "b"]),
          ("docker_container_id", .str "c1"), ("tls_skip_verify", .bool true),
          ("service_id", .str "s1"), ("deregister_critical_service_after", .str "90s"),
          ("TTL", .num (.int 5))]
      = CheckDefinition.UnmarshalJSON parseSeconds {}
          [("Name", .str "web"), ("ScriptArgs", .arr [.str "a", .str "b"]),
            ("DockerContainerID", .str "c1"), ("TLSSkipVerify", .bool true),
            ("ServiceID", .str "s1"), ("DeregisterCriticalServiceAfter", .str "90s"),
            ("TTL", .num (.int 5))] :=
  ⟨by decide, by decide,
   dialect_transparency parseSeconds false
     [("Name", .str "web"), ("ScriptArgs", .arr [.str "a", .str "b"]),
       ("DockerContainerID", .str "c1"), ("TLSSkipVerify", .bool true),
       ("ServiceID", .str "s1"), ("DeregisterCriticalServiceAfter", .str "90s"),
       ("TTL", .num (.int 5))] (by decide) (by decide)⟩

/-! ## The alias translation -/

/-- C5: for every document the structural parse accepts, the decoded `TLSSkipVerify`
is the disjunction of what the primary key `TLSSkipVerify` and the alternate key
`tls_skip_verify` hold, an absent key counting as `false`. -/
theorem tlsSkipVerify_is_or (pd : String → Except String Int) (data : Doc)
    (h : data.accepted = true) :
    (CheckDefinition.UnmarshalJSON pd {} data).1.TLSSkipVerify
      = (data.boolAt .TLSSkipVerify || data.boolAt .TLSSkipVerifyCamel) := by
  rw [unmarshalJSON_of_accepted pd data h]
  obtain ⟨i, o, l, d, hs⟩ := parseSpecialValues_shape pd (translateFields (jsonUnmarshal data {}).1)
  rw [hs]
  simp only [translateFields_TLSSkipVerify, jsonUnmarshal_TLSSkipVerify,
    jsonUnmarshal_TLSSkipVerifyCamel]

theorem tlsSkipVerify_is_or_witness :
    Doc.accepted [("TLSSkipVerify", .bool false), ("tls_skip_verify", .bool true)] = true ∧
    (CheckDefinition.UnmarshalJSON parseSeconds {}
        [("TLSSkipVerify", .bool false), ("tls_skip_verify", .bool true)]).1.TLSSkipVerify
      = (Doc.boolAt [("TLSSkipVerify", .bool false), ("tls_skip_verify", .bool true)]
            .TLSSkipVerify ||
          Doc.boolAt [("TLSSkipVerify", .bool false), ("tls_skip_verify", .bool true)]
            .TLSSkipVerifyCamel) :=
  ⟨by decide, tlsSkipVerify_is_or parseSeconds _ (by decide)⟩

/-- C6: for every document the structural parse accepts, the decoded `ScriptArgs` is
the first non-nil of what the keys `ScriptArgs`, `args` and `script_args` hold, in this
order; it is nil only when all three are nil; and a primary value is kept also when it
is the empty list.  What a key holds is the slice `encoding/json` leaves for it, stale
elements of a repeated key included. -/
theorem scriptArgs_first_populated (pd : String → Except String Int) (data : Doc)
    (h : data.accepted = true) :
    (CheckDefinition.UnmarshalJSON pd {} data).1.ScriptArgs
        = (data.stringsAt .ScriptArgs).or
            ((data.stringsAt .ArgsCamel).or (data.stringsAt .ScriptArgsCamel)) ∧
    ((CheckDefinition.UnmarshalJSON pd {} data).1.ScriptArgs = none ↔
        data.stringsAt .ScriptArgs = none ∧ data.stringsAt .ArgsCamel = none ∧
          data.stringsAt .ScriptArgsCamel = none) ∧
    (data.stringsAt .ScriptArgs = some [] →
        (CheckDefinition.UnmarshalJSON pd {} data).1.ScriptArgs = some []) := by
  have key : (CheckDefinition.UnmarshalJSON pd {} data).1.ScriptArgs
        = (data.stringsAt .ScriptArgs).or
            ((data.stringsAt .ArgsCamel).or (data.stringsAt .ScriptArgsCamel)) := by
    rw [unmarshalJSON_of_accepted pd data h]
    obtain ⟨i, o, l, d, hs⟩ :=
      parseSpecialValues_shape pd (translateFields (jsonUnmarshal data {}).1)
    rw [hs]
    simp only [translateFields_ScriptArgs, jsonUnmarshal_ScriptArgs, jsonUnmarshal_ArgsCamel,
      jsonUnmarshal_ScriptArgsCamel]
  rw [key]
  refine ⟨rfl, ?_, ?_⟩
  · cases data.stringsAt .ScriptArgs <;> cases data.stringsAt .ArgsCamel <;>
      cases data.stringsAt .ScriptArgsCamel <;> simp
  · intro h0
    rw [h0]
    rfl

theorem scriptArgs_first_populated_witness :
    (Doc.accepted [("ScriptArgs", .arr []), ("args", .arr [.str "a"]),
        ("script_args", .arr [.str "b"])] = true ∧
      (CheckDefinition.UnmarshalJSON parseSeconds {}
        [("ScriptArgs", .arr []), ("args", .arr [.str "a"]),
          ("script_args", .arr [.str "b"])]).1.ScriptArgs = some []) ∧
    (Doc.accepted [("ScriptArgs", .arr [.str "a", .str "b"]), ("ScriptArgs", .arr [.null]),
        ("ScriptArgs", .arr [.null, .null]), ("args", .arr [.str "c"])] = true ∧
      (CheckDefinition.UnmarshalJSON parseSeconds {}
        [("ScriptArgs", .arr [.str "a", .str "b"]), ("ScriptArgs", .arr [.null]),
          ("ScriptArgs", .arr [.null, .null]), ("args", .arr [.str "c"])]).1.ScriptArgs
        = some ["a", "b"]) :=
  ⟨⟨by decide,
    (scriptArgs_first_populated parseSeconds
      [("ScriptArgs", .arr []), ("args", .arr [.str "a"]), ("script_args", .arr [.str "b"])]
      (by decide)).2.2 (by decide)⟩,
   ⟨by decide,
    (scriptArgs_first_populated parseSeconds
      [("ScriptArgs", .arr [.str "a", .str "b"]), ("ScriptArgs", .arr [.null]),
        ("ScriptArgs", .arr [.null, .null]), ("args", .arr [.str "c"])]
      (by decide)).1.trans (by decide)⟩⟩

/-- A key of type `[]string` that the document repeats: `encoding/json` decodes the
later arrays over the backing array of the slice, so a `null` element keeps the element
an earlier array left at its index, also beyond the length the slice had in between.
The document `{"ScriptArgs":["a","b"],"ScriptArgs":[null],"ScriptArgs":[null,null]}`
decodes to `["a","b"]`; after an empty array or `null` nothing is kept. -/
theorem repeated_key_reuses_elements (pd : String → Except String Int) :
    (CheckDefinition.UnmarshalJSON pd {}
      [("ScriptArgs", .arr [.str "a", .str "b"]), ("ScriptArgs", .arr [.null]),
        ("ScriptArgs", .arr [.null, .null])]).1.ScriptArgs = some ["a", "b"] ∧
    (CheckDefinition.UnmarshalJSON pd {}
      [("ScriptArgs", .arr [.str "a", .str "b"]), ("ScriptArgs", .arr []),
        ("ScriptArgs", .arr [.null, .null])]).1.ScriptArgs = some ["", ""] ∧
    (CheckDefinition.UnmarshalJSON pd {}
      [("ScriptArgs", .arr [.str "a", .str "b"]), ("ScriptArgs", .null),
        ("ScriptArgs", .arr [.null])]).1.ScriptArgs = some [""] ∧
    (CheckDefinition.UnmarshalJSON pd {}
      [("ScriptArgs", .arr [.str "a", .str "b", .str "c"]), ("ScriptArgs", .arr [.str "x"]),
        ("ScriptArgs", .arr [.null, .null, .null, .null])]).1.ScriptArgs
      = some ["x", "b", "c", ""] :=
  ⟨rfl, rfl, rfl, rfl⟩

/-- C8: for every document the structural parse accepts, the decoded `ServiceID` is
what the primary key holds when that is not empty and what `service_id` holds otherwise;
the same for `DockerContainerID` and `docker_container_id`; and when the primary key
`DeregisterCriticalServiceAfter` holds a non-null value, every accepted document that
differs only in its `deregister_critical_service_after` members decodes to the same
record and the same error, whatever these members hold. -/
theorem alternate_used_only_without_primary (pd : String → Except String Int) (data : Doc)
    (h : data.accepted = true) :
    (CheckDefinition.UnmarshalJSON pd {} data).1.ServiceID
        = (if data.stringAt .ServiceID ≠ "" then data.stringAt .ServiceID
           else data.stringAt .ServiceIDCamel) ∧
    (CheckDefinition.UnmarshalJSON pd {} data).1.DockerContainerID
        = (if data.stringAt .DockerContainerID ≠ "" then data.stringAt .DockerContainerID
           else data.stringAt .DockerContainerIDCamel) ∧
    (data.rawAt .DeregisterCriticalServiceAfter ≠ .nil →
      ∀ data' : Doc, data'.accepted = true →
        data'.withoutAlternateDeregister = data.withoutAlternateDeregister →
        CheckDefinition.UnmarshalJSON pd {} data' = CheckDefinition.UnmarshalJSON pd {} data) := by
  refine ⟨?_, ?_, ?_⟩
  · rw [unmarshalJSON_of_accepted pd data h]
    obtain ⟨i, o, l, d, hs⟩ :=
      parseSpecialValues_shape pd (translateFields (jsonUnmarshal data {}).1)
    rw [hs]
    simp only [translateFields_ServiceID, jsonUnmarshal_ServiceID, jsonUnmarshal_ServiceIDCamel]
  · rw [unmarshalJSON_of_accepted pd data h]
    obtain ⟨i, o, l, d, hs⟩ :=
      parseSpecialValues_shape pd (translateFields (jsonUnmarshal data {}).1)
    rw [hs]
    simp only [translateFields_DockerContainerID, jsonUnmarshal_DockerContainerID,
      jsonUnmarshal_DockerContainerIDCamel]
  · intro hp data' h' hsame
    rw [unmarshalJSON_of_accepted pd data h, unmarshalJSON_of_accepted pd data' h']
    have hc : (jsonUnmarshal data' {}).1.clearDeregisterCamel
        = (jsonUnmarshal data {}).1.clearDeregisterCamel := by
      rw [← jsonUnmarshal_withoutAlternateDeregister, ← jsonUnmarshal_withoutAlternateDeregister,
        hsame]
    have hn : (jsonUnmarshal data {}).1.DeregisterCriticalServiceAfter.isNil = false := by
      rw [jsonUnmarshal_DeregisterCriticalServiceAfter]
      cases hr : data.rawAt .DeregisterCriticalServiceAfter <;> first | rfl | exact absurd hr hp
    have hn' : (jsonUnmarshal data' {}).1.DeregisterCriticalServiceAfter.isNil = false := by
      have e := congrArg Aux.DeregisterCriticalServiceAfter hc
      have e' : (jsonUnmarshal data' {}).1.DeregisterCriticalServiceAfter
          = (jsonUnmarshal data {}).1.DeregisterCriticalServiceAfter := e
      rw [e']
      exact hn
    rw [← parseSpecialValues_clearDeregisterCamel pd _ hn,
      ← parseSpecialValues_clearDeregisterCamel pd _ hn', hc]

theorem alternate_used_only_without_primary_witness :
    Doc.accepted [("DeregisterCriticalServiceAfter", .str "5s")] = true ∧
    CheckDefinition.UnmarshalJSON parseSeconds {}
        [("DeregisterCriticalServiceAfter", .str "5s"),
          ("deregister_critical_service_after", .str "bogus")]
      = CheckDefinition.UnmarshalJSON parseSeconds {}
          [("DeregisterCriticalServiceAfter", .str "5s")] :=
  ⟨by decide,
   (alternate_used_only_without_primary parseSeconds
      [("DeregisterCriticalServiceAfter", .str "5s")] (by decide)).2.2 (by decide)
      [("DeregisterCriticalServiceAfter", .str "5s"),
        ("deregister_critical_service_after", .str "bogus")] (by decide) rfl⟩

/-- C7: for every document that the structural parse accepts, whose `TTL` slot is not
a malformed literal and that has no primary key `DeregisterCriticalServiceAfter`:
when `deregister_critical_service_after` holds an integer `N` that is a float64 and lies
in the int64 range, decoding into a fresh record succeeds with
`DeregisterCriticalServiceAfter = N`; when it holds a string that parses to `d`,
decoding succeeds with `DeregisterCriticalServiceAfter = d`. -/
theorem alternate_deregister_duration (pd : String → Except String Int) (data : Doc)
    (h : data.accepted = true)
    (hTTL : ∀ s, data.rawAt .TTL = .string s → ∃ d, pd s = .ok d)
    (hp : data.values .DeregisterCriticalServiceAfter = []) :
    (∀ N : Int, Float64Exact N → -(2 : Int) ^ 63 ≤ N → N < (2 : Int) ^ 63 →
      (data.values .DeregisterCriticalServiceAfterCamel).getLast? = some (.num (.int N)) →
      (CheckDefinition.UnmarshalJSON pd {} data).2 = none ∧
      (CheckDefinition.UnmarshalJSON pd {} data).1.DeregisterCriticalServiceAfter = N) ∧
    (∀ (s : String) (d : Int), pd s = .ok d →
      (data.values .DeregisterCriticalServiceAfterCamel).getLast? = some (.str s) →
      (CheckDefinition.UnmarshalJSON pd {} data).2 = none ∧
      (CheckDefinition.UnmarshalJSON pd {} data).1.DeregisterCriticalServiceAfter = d) := by
  have hT : ∀ s, (translateFields (jsonUnmarshal data {}).1).TTL = .string s →
      ∃ d, pd s = .ok d := by
    intro s hs
    apply hTTL s
    rw [← jsonUnmarshal_TTL]
    exact hs
  obtain ⟨h2, h1⟩ := parseSpecialValues_deregister pd _ hT
  have hnil : (jsonUnmarshal data {}).1.DeregisterCriticalServiceAfter = .nil := by
    rw [jsonUnmarshal_DeregisterCriticalServiceAfter]
    exact rawAt_of_values_nil data _ hp
  have hd : (translateFields (jsonUnmarshal data {}).1).DeregisterCriticalServiceAfter
      = data.rawAt .DeregisterCriticalServiceAfterCamel := by
    rw [← jsonUnmarshal_DeregisterCriticalServiceAfterCamel]
    simp [translateFields, hnil, Raw.isNil]
  rw [unmarshalJSON_of_accepted pd data h, h1, h2, hd]
  constructor
  · intro N hx hlo hhi hv
    obtain ⟨f, hf, hN⟩ := toFloat64_int_exact N hx hlo hhi
    rw [rawAt_of_getLast data _ _ (.float64 f) hv (by intro old; simp [decodeInterface, hf])]
    simp [parseSpecial, Raw.isNil, hN]
  · intro s d hs hv
    rw [rawAt_of_getLast data _ _ (.string s) hv (by intro old; rfl)]
    simp [parseSpecial, Raw.isNil, hs]

theorem alternate_deregister_duration_witness :
    (Doc.accepted [("deregister_critical_service_after", .num (.int 5000000000))] = true ∧
      (CheckDefinition.UnmarshalJSON parseSeconds {}
        [("deregister_critical_service_after", .num (.int 5000000000))]).2 = none ∧
      (CheckDefinition.UnmarshalJSON parseSeconds {}
        [("deregister_critical_service_after", .num (.int 5000000000))]
          ).1.DeregisterCriticalServiceAfter = 5000000000) ∧
    (parseSeconds "90s" = .ok 90000000000 ∧
      (CheckDefinition.UnmarshalJSON parseSeconds {}
        [("Name", .str "web"), ("deregister_critical_service_after", .str "90s")]).2 = none ∧
      (CheckDefinition.UnmarshalJSON parseSeconds {}
        [("Name", .str "web"), ("deregister_critical_service_after", .str "90s")]
          ).1.DeregisterCriticalServiceAfter = 90000000000) :=
  ⟨⟨by decide,
    (alternate_deregister_duration parseSeconds
      [("deregister_critical_service_after", .num (.int 5000000000))] (by decide)
      (by intro s hs; have e : Raw.nil = Raw.string s := hs; cases e) rfl).1 5000000000
      ⟨5000000000, 0, by decide, by decide⟩ (by decide) (by decide) rfl⟩,
   ⟨rfl,
    (alternate_deregister_duration parseSeconds
      [("Name", .str "web"), ("deregister_critical_service_after", .str "90s")] (by decide)
      (by intro s hs; have e : Raw.nil = Raw.string s := hs; cases e) rfl).2 "90s" 90000000000
      rfl rfl⟩⟩

/-! ## The health view -/

/-- C9: the status of the health view is the status of the record when that is not
empty and the constant `"critical"` when it is; node, name, notes and service id are
copied. -/
theorem healthCheck_status (c : CheckDefinition) (node : String) :
    (c.HealthCheck node).1.Status = (if c.Status ≠ "" then c.Status else "critical") ∧
    api.HealthCritical = "critical" ∧
    (c.HealthCheck node).1.Node = node ∧
    (c.HealthCheck node).1.Name = c.Name ∧
    (c.HealthCheck node).1.Notes = c.Notes ∧
    (c.HealthCheck node).1.ServiceID = c.ServiceID := by
  refine ⟨?_, rfl, ?_, ?_, ?_, ?_⟩ <;>
    simp only [CheckDefinition.HealthCheck, api.HealthCritical] <;> split_ifs <;> rfl

/-- C10: the check id of the health view is the id of the record when that is not
empty, the name when the id is empty and the name is not, and empty otherwise; the
record is as it was before the call. -/
theorem healthCheck_checkID (c : CheckDefinition) (node : String) :
    (c.HealthCheck node).1.CheckID =
      (if c.ID ≠ "" then c.ID else if c.Name ≠ "" then c.Name else "") ∧
    (c.HealthCheck node).2 = c ∧
    (({ Name := "web-check" } : CheckDefinition).HealthCheck node).1.CheckID = "web-check" ∧
    (({ Name := "web-check" } : CheckDefinition).HealthCheck node).2.ID = "" := by
  refine ⟨?_, rfl, by simp [CheckDefinition.HealthCheck], rfl⟩
  simp only [CheckDefinition.HealthCheck]
  by_cases hid : c.ID = "" <;> by_cases hn : c.Name = "" <;> by_cases hs : c.Status = "" <;>
    simp [hid, hn, hs]

/-! ## The check-specification view -/

/-- C11: `CheckType` copies the fields of the record without any defaulting: the check
id is the id of the record and the status its status, also when they are empty, and
every other field of the view is the field of the same name of the record. -/
theorem checkType_field_copy (c : CheckDefinition) :
    c.CheckType.CheckID = c.ID ∧ c.CheckType.Status = c.Status ∧
    (c.ID = "" → c.CheckType.CheckID = "") ∧ (c.Status = "" → c.CheckType.Status = "") ∧
    c.CheckType.Name = c.Name ∧ c.CheckType.Notes = c.Notes ∧
    c.CheckType.ScriptArgs = c.ScriptArgs ∧ c.CheckType.HTTP = c.HTTP ∧
    c.CheckType.Header = c.Header ∧ c.CheckType.Method = c.Method ∧
    c.CheckType.TCP = c.TCP ∧ c.CheckType.Interval = c.Interval ∧
    c.CheckType.DockerContainerID = c.DockerContainerID ∧ c.CheckType.Shell = c.Shell ∧
    c.CheckType.GRPC = c.GRPC ∧ c.CheckType.GRPCUseTLS = c.GRPCUseTLS ∧
    c.CheckType.TLSSkipVerify = c.TLSSkipVerify ∧ c.CheckType.AliasNode = c.AliasNode ∧
    c.CheckType.AliasService = c.AliasService ∧ c.CheckType.Timeout = c.Timeout ∧
    c.CheckType.TTL = c.TTL ∧
    c.CheckType.SuccessBeforePassing = c.SuccessBeforePassing ∧
    c.CheckType.FailuresBeforeCritical = c.FailuresBeforeCritical ∧
    c.CheckType.DeregisterCriticalServiceAfter = c.DeregisterCriticalServiceAfter ∧
    c.CheckType.OutputMaxSize = c.OutputMaxSize := by
  refine ⟨rfl, rfl, fun h => h, fun h => h, rfl, rfl, rfl, rfl, rfl, rfl, rfl, rfl, rfl, rfl,
    rfl, rfl, rfl, rfl, rfl, rfl, rfl, rfl, rfl, rfl, rfl⟩

theorem checkType_field_copy_witness :
    (({ Name := "web-check" } : CheckDefinition).CheckType.CheckID = "") ∧
    (({ Name := "web-check" } : CheckDefinition).CheckType.Status = "") :=
  ⟨(checkType_field_copy { Name := "web-check" }).2.2.1 rfl,
   (checkType_field_copy { Name := "web-check" }).2.2.2.1 rfl⟩

/-! ## The two views together -/

/-- C18: the status of the health view is never empty; its check id is empty exactly
when the id and the name of the record are both empty; and when the id of the record is
not empty, the health view and the check-specification view have the same check id. -/
theorem healthCheck_invariants (c : CheckDefinition) (node : String) :
    (c.HealthCheck node).1.Status ≠ "" ∧
    ((c.HealthCheck node).1.CheckID = "" ↔ c.ID = "" ∧ c.Name = "") ∧
    (c.ID ≠ "" → (c.HealthCheck node).1.CheckID = c.CheckType.CheckID) := by
  refine ⟨?_, ?_, ?_⟩
  · simp only [CheckDefinition.HealthCheck, api.HealthCritical]
    by_cases hs : c.Status = ""
    · by_cases hid : c.ID = "" <;> by_cases hn : c.Name = "" <;> simp [hs, hid, hn]
    · by_cases hid : c.ID = "" <;> by_cases hn : c.Name = "" <;> simp [hs, hid, hn]
  · simp only [CheckDefinition.HealthCheck]
    by_cases hs : c.Status = "" <;> by_cases hid : c.ID = "" <;> by_cases hn : c.Name = "" <;>
      simp [hs, hid, hn]
  · intro hid
    simp only [CheckDefinition.HealthCheck, CheckDefinition.CheckType]
    by_cases hs : c.Status = "" <;> simp [hs, hid]

theorem healthCheck_invariants_witness :
    (({ ID := "c1", Name := "web-check" } : CheckDefinition).HealthCheck "node1").1.CheckID
      = ({ ID := "c1", Name := "web-check" } : CheckDefinition).CheckType.CheckID :=
  (healthCheck_invariants { ID := "c1", Name := "web-check" } "node1").2.2 (by decide)

/-! ## The duration blocks: when they fail and what they assign -/

theorem malformed_eq_false_iff (pd : String → Except String Int) (raw : Raw) :
    raw.malformed pd = false ↔ ∀ s, raw = .string s → ∃ d, pd s = .ok d := by
  cases raw with
  | string s =>
    cases h : pd s with
    | ok d => simp [Raw.malformed, h]
    | error msg =>
      simp only [Raw.malformed, h, Bool.true_eq_false, false_iff, not_forall]
      refine ⟨s, rfl, ?_⟩
      rintro ⟨d, hd⟩
      rw [h] at hd
      cases hd
  | _ => simp [Raw.malformed]

theorem parseSpecial_snd (pd : String → Except String Int) (raw : Raw) (old : Int) :
    (parseSpecial pd raw old).2 = none ↔ raw.malformed pd = false := by
  cases raw with
  | string s => cases h : pd s <;> simp [parseSpecial, Raw.malformed, h]
  | _ => simp [parseSpecial, Raw.malformed]

theorem parseSpecialValues_snd (pd : String → Except String Int) (aux : Aux) :
    (parseSpecialValues pd aux).2 = none ↔
      aux.TTL.malformed pd = false ∧ aux.DeregisterCriticalServiceAfter.malformed pd = false := by
  cases hT : aux.TTL.malformed pd with
  | false =>
    rw [(parseSpecialValues_deregister pd aux ((malformed_eq_false_iff pd _).1 hT)).1]
    cases hn : aux.DeregisterCriticalServiceAfter.isNil with
    | true =>
      have : aux.DeregisterCriticalServiceAfter = .nil := by
        cases hd : aux.DeregisterCriticalServiceAfter <;> rw [hd] at hn <;>
          first | rfl | cases hn
      simp [this, Raw.malformed, Raw.isNil]
    | false => simp [parseSpecial_snd]
  | true =>
    simp only [Bool.true_eq_false, false_and, iff_false]
    cases hr : aux.TTL with
    | string s =>
      rw [hr] at hT
      cases hp : pd s with
      | ok d => simp [Raw.malformed, hp] at hT
      | error msg =>
        unfold parseSpecialValues
        cases aux.Interval.isNil <;> cases aux.Timeout.isNil <;>
          simp [hr, parseSpecial, hp, Raw.isNil]
    | _ => rw [hr] at hT; simp [Raw.malformed] at hT

theorem parseSpecialValues_fst (pd : String → Except String Int) (aux : Aux)
    (h : (parseSpecialValues pd aux).2 = none) :
    (parseSpecialValues pd aux).1 =
      { aux.Alias with
        Interval :=
          (if !aux.Interval.isNil then parseSpecial pd aux.TTL aux.Alias.Interval
           else (aux.Alias.Interval, none)).1
        Timeout :=
          (if !aux.Timeout.isNil then parseSpecial pd aux.TTL aux.Alias.Timeout
           else (aux.Alias.Timeout, none)).1
        TTL :=
          (if !aux.TTL.isNil then parseSpecial pd aux.TTL aux.Alias.TTL
           else (aux.Alias.TTL, none)).1
        DeregisterCriticalServiceAfter :=
          (if !aux.DeregisterCriticalServiceAfter.isNil then
            parseSpecial pd aux.DeregisterCriticalServiceAfter
              aux.Alias.DeregisterCriticalServiceAfter
           else (aux.Alias.DeregisterCriticalServiceAfter, none)).1 } := by
  have hT := (malformed_eq_false_iff pd _).1 ((parseSpecialValues_snd pd aux).1 h).1
  have hp := parseSpecial_ok pd aux.TTL hT
  have hi : (if !aux.Interval.isNil then parseSpecial pd aux.TTL aux.Alias.Interval
      else (aux.Alias.Interval, none)).2 = none := by
    split
    · exact hp _
    · rfl
  have ho : (if !aux.Timeout.isNil then parseSpecial pd aux.TTL aux.Alias.Timeout
      else (aux.Alias.Timeout, none)).2 = none := by
    split
    · exact hp _
    · rfl
  have hl : (if !aux.TTL.isNil then parseSpecial pd aux.TTL aux.Alias.TTL
      else (aux.Alias.TTL, none)).2 = none := by
    split
    · exact hp _
    · rfl
  unfold parseSpecialValues
  simp only [hi, ho, hl]

theorem foldl_decodeMember_const {α : Type} (π : Aux → α)
    (h : ∀ g v a, π (decodeField g v a).1 = π a)
    (data : Doc) (st : Aux × Option Error) :
    π (data.foldl decodeMember st).1 = π st.1 := by
  induction data generalizing st with
  | nil => rfl
  | cons kv rest ih =>
    rw [List.foldl_cons, ih]
    unfold decodeMember
    cases hk : findField kv.1 with
    | none => rfl
    | some g => exact h g kv.2 st.1

theorem jsonUnmarshal_durations (data : Doc) (t : CheckDefinition) :
    (jsonUnmarshal data { Alias := t }).1.Alias.Interval = t.Interval ∧
    (jsonUnmarshal data { Alias := t }).1.Alias.Timeout = t.Timeout ∧
    (jsonUnmarshal data { Alias := t }).1.Alias.TTL = t.TTL ∧
    (jsonUnmarshal data { Alias := t }).1.Alias.DeregisterCriticalServiceAfter
      = t.DeregisterCriticalServiceAfter :=
  ⟨foldl_decodeMember_const (fun a => a.Alias.Interval)
      (by intro g v a; cases g <;> rfl) data _,
   foldl_decodeMember_const (fun a => a.Alias.Timeout)
      (by intro g v a; cases g <;> rfl) data _,
   foldl_decodeMember_const (fun a => a.Alias.TTL)
      (by intro g v a; cases g <;> rfl) data _,
   foldl_decodeMember_const (fun a => a.Alias.DeregisterCriticalServiceAfter)
      (by intro g v a; cases g <;> rfl) data _⟩

theorem translateFields_deregister (data : Doc) :
    (translateFields (jsonUnmarshal data {}).1).DeregisterCriticalServiceAfter
      = data.effectiveDeregister := by
  unfold Doc.effectiveDeregister
  rw [← jsonUnmarshal_DeregisterCriticalServiceAfter,
    ← jsonUnmarshal_DeregisterCriticalServiceAfterCamel]
  rfl

theorem accepted_of_ok (pd : String → Except String Int) (data : Doc)
    (h : (CheckDefinition.UnmarshalJSON pd {} data).2 = none) : data.accepted = true := by
  unfold CheckDefinition.UnmarshalJSON at h
  unfold Doc.accepted
  cases hr : (jsonUnmarshal data {}).2 with
  | none => rfl
  | some e => simp only [hr] at h; cases h

theorem unmarshalJSON_snd (pd : String → Except String Int) (data : Doc)
    (h : data.accepted = true) :
    (CheckDefinition.UnmarshalJSON pd {} data).2 = none ↔
      (data.rawAt .TTL).malformed pd = false ∧ data.effectiveDeregister.malformed pd = false := by
  rw [unmarshalJSON_of_accepted pd data h, parseSpecialValues_snd,
    translateFields_deregister, ← jsonUnmarshal_TTL]
  rfl

theorem unmarshalJSON_fst (pd : String → Except String Int) (data : Doc)
    (h : (CheckDefinition.UnmarshalJSON pd {} data).2 = none) :
    (CheckDefinition.UnmarshalJSON pd {} data).1.Interval
        = (if !(data.rawAt .Interval).isNil then parseSpecial pd (data.rawAt .TTL) 0
           else (0, none)).1 ∧
    (CheckDefinition.UnmarshalJSON pd {} data).1.Timeout
        = (if !(data.rawAt .Timeout).isNil then parseSpecial pd (data.rawAt .TTL) 0
           else (0, none)).1 ∧
    (CheckDefinition.UnmarshalJSON pd {} data).1.TTL
        = (if !(data.rawAt .TTL).isNil then parseSpecial pd (data.rawAt .TTL) 0
           else (0, none)).1 ∧
    (CheckDefinition.UnmarshalJSON pd {} data).1.DeregisterCriticalServiceAfter
        = (if !data.effectiveDeregister.isNil then parseSpecial pd data.effectiveDeregister 0
           else (0, none)).1 := by
  have ha := accepted_of_ok pd data h
  rw [unmarshalJSON_of_accepted pd data ha] at h ⊢
  rw [parseSpecialValues_fst pd _ h]
  obtain ⟨h1, h2, h3, h4⟩ := jsonUnmarshal_durations data {}
  have e1 : (translateFields (jsonUnmarshal data {}).1).Alias.Interval = 0 := h1
  have e2 : (translateFields (jsonUnmarshal data {}).1).Alias.Timeout = 0 := h2
  have e3 : (translateFields (jsonUnmarshal data {}).1).Alias.TTL = 0 := h3
  have e4 : (translateFields (jsonUnmarshal data {}).1).Alias.DeregisterCriticalServiceAfter
      = 0 := h4
  have r1 : (translateFields (jsonUnmarshal data {}).1).Interval = data.rawAt .Interval :=
    jsonUnmarshal_Interval data
  have r2 : (translateFields (jsonUnmarshal data {}).1).Timeout = data.rawAt .Timeout :=
    jsonUnmarshal_Timeout data
  have r3 : (translateFields (jsonUnmarshal data {}).1).TTL = data.rawAt .TTL :=
    jsonUnmarshal_TTL data
  simp only [e1, e2, e3, e4, r1, r2, r3, translateFields_deregister, and_self]

theorem parseSpecial_guard (pd : String → Except String Int) (raw : Raw) :
    (if !raw.isNil then parseSpecial pd raw 0 else (0, none)).1 = (parseSpecial pd raw 0).1 := by
  cases raw <;> rfl

theorem isNil_eq_false_of_ne {raw : Raw} (h : raw ≠ .nil) : raw.isNil = false := by
  cases raw <;> first | rfl | exact absurd rfl h

/-! ## Absent and ignored duration slots -/

/-- C12, as the code has it: the document `{"TTL": true}` decodes into a fresh record
without error, and so do the documents that hold a boolean, an array or an object under
`Interval`, `Timeout` or `DeregisterCriticalServiceAfter`. -/
theorem other_leaf_is_no_error :
    (CheckDefinition.UnmarshalJSON parseSeconds {} [("TTL", .bool true)]).2 = none ∧
    (CheckDefinition.UnmarshalJSON parseSeconds {} [("Interval", .arr [.str "10s"])]).2
      = none ∧
    (CheckDefinition.UnmarshalJSON parseSeconds {} [("Timeout", .obj [("s", .num (.int 1))])]).2
      = none ∧
    (CheckDefinition.UnmarshalJSON parseSeconds {}
      [("DeregisterCriticalServiceAfter", .bool false)]).2 = none := by
  refine ⟨by decide, by decide, by decide, by decide⟩

/-- C12 amended: a boolean, an array or an object in the raw slot of a duration field
is ignored and is no error.  For every document the structural parse accepts and each of
the four duration fields whose slot holds such a leaf, the decode returns no error
when no duration slot (`Interval`, `Timeout`, `TTL`, the effective deregister slot) holds
a malformed literal; and `TTL` (resp. `DeregisterCriticalServiceAfter`) whose slot
holds such a leaf is zero after a successful decode. -/
theorem other_leaf_ignored (pd : String → Except String Int) (data : Doc)
    (h : data.accepted = true) :
    (∀ f ∈ [Field.Interval, Field.Timeout, Field.TTL, Field.DeregisterCriticalServiceAfter],
      (data.rawAt f).isOther = true →
      (data.rawAt .Interval).malformed pd = false →
      (data.rawAt .Timeout).malformed pd = false →
      (data.rawAt .TTL).malformed pd = false → data.effectiveDeregister.malformed pd = false →
      (CheckDefinition.UnmarshalJSON pd {} data).2 = none) ∧
    ((data.rawAt .TTL).isOther = true → (CheckDefinition.UnmarshalJSON pd {} data).2 = none →
      (CheckDefinition.UnmarshalJSON pd {} data).1.TTL = 0) ∧
    ((data.rawAt .DeregisterCriticalServiceAfter).isOther = true →
      (CheckDefinition.UnmarshalJSON pd {} data).2 = none →
      (CheckDefinition.UnmarshalJSON pd {} data).1.DeregisterCriticalServiceAfter = 0) := by
  refine ⟨?_, ?_, ?_⟩
  · intro f _ _ _ _ hT hD
    exact (unmarshalJSON_snd pd data h).2 ⟨hT, hD⟩
  · intro ho hok
    rw [(unmarshalJSON_fst pd data hok).2.2.1]
    cases hr : data.rawAt .TTL <;> rw [hr] at ho <;> first | rfl | cases ho
  · intro ho hok
    rw [(unmarshalJSON_fst pd data hok).2.2.2]
    have he : data.effectiveDeregister = data.rawAt .DeregisterCriticalServiceAfter := by
      unfold Doc.effectiveDeregister
      cases hr : data.rawAt .DeregisterCriticalServiceAfter <;> rw [hr] at ho <;>
        first | rfl | cases ho
    rw [he]
    cases hr : data.rawAt .DeregisterCriticalServiceAfter <;> rw [hr] at ho <;>
      first | rfl | cases ho

theorem other_leaf_ignored_witness :
    Doc.accepted [("TTL", .bool true), ("Interval", .arr [])] = true ∧
    (CheckDefinition.UnmarshalJSON parseSeconds {}
      [("TTL", .bool true), ("Interval", .arr [])]).2 = none ∧
    (CheckDefinition.UnmarshalJSON parseSeconds {}
      [("TTL", .bool true), ("Interval", .arr [])]).1.TTL = 0 :=
  ⟨by decide,
   (other_leaf_ignored parseSeconds [("TTL", .bool true), ("Interval", .arr [])]
      (by decide)).1 .Interval (by decide) (by decide) (by decide) (by decide) (by decide)
      (by decide),
   (other_leaf_ignored parseSeconds [("TTL", .bool true), ("Interval", .arr [])]
      (by decide)).2.1 (by decide) (by decide)⟩

/-- C14: after a successful decode into a fresh record, a duration field whose key is
absent from the document is zero, whatever the other duration slots hold; for
`DeregisterCriticalServiceAfter` both the primary and the alternate key are absent. -/
theorem absent_duration_is_zero (pd : String → Except String Int) (data : Doc)
    (h : (CheckDefinition.UnmarshalJSON pd {} data).2 = none) :
    (data.values .Interval = [] → (CheckDefinition.UnmarshalJSON pd {} data).1.Interval = 0) ∧
    (data.values .Timeout = [] → (CheckDefinition.UnmarshalJSON pd {} data).1.Timeout = 0) ∧
    (data.values .TTL = [] → (CheckDefinition.UnmarshalJSON pd {} data).1.TTL = 0) ∧
    (data.values .DeregisterCriticalServiceAfter = [] →
      data.values .DeregisterCriticalServiceAfterCamel = [] →
      (CheckDefinition.UnmarshalJSON pd {} data).1.DeregisterCriticalServiceAfter = 0) := by
  obtain ⟨h1, h2, h3, h4⟩ := unmarshalJSON_fst pd data h
  refine ⟨?_, ?_, ?_, ?_⟩
  · intro hv
    rw [h1, rawAt_of_values_nil data _ hv]
    rfl
  · intro hv
    rw [h2, rawAt_of_values_nil data _ hv]
    rfl
  · intro hv
    rw [h3, rawAt_of_values_nil data _ hv]
    rfl
  · intro hv hc
    rw [h4]
    unfold Doc.effectiveDeregister
    rw [rawAt_of_values_nil data _ hv, rawAt_of_values_nil data _ hc]
    rfl

theorem absent_duration_is_zero_witness :
    (CheckDefinition.UnmarshalJSON parseSeconds {}
      [("Name", .str "web"), ("TTL", .str "30s"), ("Interval", .str "10s")]).2 = none ∧
    (CheckDefinition.UnmarshalJSON parseSeconds {}
      [("Name", .str "web"), ("TTL", .str "30s"), ("Interval", .str "10s")]).1.Timeout = 0 ∧
    (CheckDefinition.UnmarshalJSON parseSeconds {}
      [("Name", .str "web"), ("TTL", .str "30s"), ("Interval", .str "10s")]
        ).1.DeregisterCriticalServiceAfter = 0 :=
  ⟨by decide,
   (absent_duration_is_zero parseSeconds
      [("Name", .str "web"), ("TTL", .str "30s"), ("Interval", .str "10s")]
      (by decide)).2.1 rfl,
   (absent_duration_is_zero parseSeconds
      [("Name", .str "web"), ("TTL", .str "30s"), ("Interval", .str "10s")]
      (by decide)).2.2.2 rfl rfl⟩

/-! ## What the `Interval` and `Timeout` blocks do -/

/-- C16: after a successful decode into a fresh record, `Interval` is zero or equal to
`TTL`, and so is `Timeout`; when the key `Interval` (resp. `Timeout`) holds a value
that is not null, `Interval` (resp. `Timeout`) equals the decoded `TTL`. -/
theorem interval_timeout_follow_ttl (pd : String → Except String Int) (data : Doc)
    (h : (CheckDefinition.UnmarshalJSON pd {} data).2 = none) :
    ((CheckDefinition.UnmarshalJSON pd {} data).1.Interval = 0 ∨
      (CheckDefinition.UnmarshalJSON pd {} data).1.Interval
        = (CheckDefinition.UnmarshalJSON pd {} data).1.TTL) ∧
    ((CheckDefinition.UnmarshalJSON pd {} data).1.Timeout = 0 ∨
      (CheckDefinition.UnmarshalJSON pd {} data).1.Timeout
        = (CheckDefinition.UnmarshalJSON pd {} data).1.TTL) ∧
    (data.rawAt .Interval ≠ .nil →
      (CheckDefinition.UnmarshalJSON pd {} data).1.Interval
        = (CheckDefinition.UnmarshalJSON pd {} data).1.TTL) ∧
    (data.rawAt .Timeout ≠ .nil →
      (CheckDefinition.UnmarshalJSON pd {} data).1.Timeout
        = (CheckDefinition.UnmarshalJSON pd {} data).1.TTL) := by
  obtain ⟨h1, h2, h3, _⟩ := unmarshalJSON_fst pd data h
  rw [parseSpecial_guard] at h3
  rw [h1, h2, h3]
  refine ⟨?_, ?_, ?_, ?_⟩
  · cases hn : (data.rawAt .Interval).isNil
    · right; rfl
    · left; rfl
  · cases hn : (data.rawAt .Timeout).isNil
    · right; rfl
    · left; rfl
  · intro hne
    rw [isNil_eq_false_of_ne hne]
    rfl
  · intro hne
    rw [isNil_eq_false_of_ne hne]
    rfl

theorem interval_timeout_follow_ttl_witness :
    (CheckDefinition.UnmarshalJSON parseSeconds {}
      [("Interval", .str "10s"), ("TTL", .str "30s")]).2 = none ∧
    (CheckDefinition.UnmarshalJSON parseSeconds {}
      [("Interval", .str "10s"), ("TTL", .str "30s")]).1.Interval
      = (CheckDefinition.UnmarshalJSON parseSeconds {}
          [("Interval", .str "10s"), ("TTL", .str "30s")]).1.TTL ∧
    (CheckDefinition.UnmarshalJSON parseSeconds {}
      [("Interval", .str "10s"), ("TTL", .str "30s")]).1.Interval = 30000000000 :=
  ⟨by decide,
   (interval_timeout_follow_ttl parseSeconds [("Interval", .str "10s"), ("TTL", .str "30s")]
      (by decide)).2.2.1 (by decide),
   by decide⟩

/-- C17: for a document the structural parse accepts, the decode returns an error
exactly when the `TTL` slot holds a malformed literal or the effective deregister slot
(the primary when not null, else the alternate) holds one; an accepted document with the
same `TTL` and effective deregister slots fails or succeeds alike, whatever its
`Interval` and `Timeout` slots hold. -/
theorem decode_fails_iff (pd : String → Except String Int) (data : Doc)
    (h : data.accepted = true) :
    ((CheckDefinition.UnmarshalJSON pd {} data).2 ≠ none ↔
      (data.rawAt .TTL).malformed pd = true ∨ data.effectiveDeregister.malformed pd = true) ∧
    (∀ data' : Doc, data'.accepted = true → data'.rawAt .TTL = data.rawAt .TTL →
      data'.effectiveDeregister = data.effectiveDeregister →
      ((CheckDefinition.UnmarshalJSON pd {} data').2 = none ↔
        (CheckDefinition.UnmarshalJSON pd {} data).2 = none)) := by
  refine ⟨?_, ?_⟩
  · rw [Ne, unmarshalJSON_snd pd data h]
    cases (data.rawAt .TTL).malformed pd <;> cases data.effectiveDeregister.malformed pd <;>
      simp
  · intro data' h' hT hD
    rw [unmarshalJSON_snd pd data h, unmarshalJSON_snd pd data' h', hT, hD]

theorem decode_fails_iff_witness :
    Doc.accepted [("TTL", .str "5s"), ("Interval", .num (.int 7))] = true ∧
    ((CheckDefinition.UnmarshalJSON parseSeconds {}
        [("Interval", .str "bogus"), ("Timeout", .bool true), ("TTL", .str "5s")]).2 = none ↔
      (CheckDefinition.UnmarshalJSON parseSeconds {}
        [("TTL", .str "5s"), ("Interval", .num (.int 7))]).2 = none) :=
  ⟨by decide,
   (decode_fails_iff parseSeconds [("TTL", .str "5s"), ("Interval", .num (.int 7))]
      (by decide)).2
      [("Interval", .str "bogus"), ("Timeout", .bool true), ("TTL", .str "5s")]
      (by decide) (by decide) (by decide)⟩

/-! ## What a failed decode leaves in the record -/

theorem foldl_decodeMember_frame {α : Type} (π : Aux → α) (f : Field)
    (h : ∀ g v a, g ≠ f → π (decodeField g v a).1 = π a)
    (data : Doc) (st : Aux × Option Error) (hv : data.values f = []) :
    π (data.foldl decodeMember st).1 = π st.1 := by
  induction data generalizing st with
  | nil => rfl
  | cons kv rest ih =>
    unfold Doc.values at hv
    rw [List.filterMap_cons] at hv
    by_cases hk : findField kv.1 = some f
    · simp [hk] at hv
    · simp only [hk, if_false] at hv
      rw [List.foldl_cons, ih _ hv]
      unfold decodeMember
      cases hg : findField kv.1 with
      | none => rfl
      | some g =>
        have hne : g ≠ f := by
          intro e
          rw [hg, e] at hk
          exact hk rfl
        exact h g kv.2 st.1 hne

theorem unmarshalJSON_plain {α : Type} (π : CheckDefinition → α)
    (h1 : ∀ aux, π (translateFields aux).Alias = π aux.Alias)
    (h2 : ∀ (c : CheckDefinition) (i o l d : Int),
      π { c with Interval := i, Timeout := o, TTL := l,
                 DeregisterCriticalServiceAfter := d } = π c)
    (pd : String → Except String Int) (t : CheckDefinition) (data : Doc) :
    π (CheckDefinition.UnmarshalJSON pd t data).1
      = π (jsonUnmarshal data { Alias := t }).1.Alias := by
  unfold CheckDefinition.UnmarshalJSON
  cases hr : (jsonUnmarshal data { Alias := t }).2 with
  | some e => simp only [hr]
  | none =>
    simp only [hr]
    obtain ⟨i, o, l, d, hs⟩ :=
      parseSpecialValues_shape pd (translateFields (jsonUnmarshal data { Alias := t }).1)
    rw [hs, h2, h1]

theorem parseSpecialValues_nil (pd : String → Except String Int) (aux : Aux) :
    (aux.Interval = .nil → (parseSpecialValues pd aux).1.Interval = aux.Alias.Interval) ∧
    (aux.Timeout = .nil → (parseSpecialValues pd aux).1.Timeout = aux.Alias.Timeout) ∧
    (aux.TTL = .nil → (parseSpecialValues pd aux).1.TTL = aux.Alias.TTL) ∧
    (aux.DeregisterCriticalServiceAfter = .nil →
      (parseSpecialValues pd aux).1.DeregisterCriticalServiceAfter
        = aux.Alias.DeregisterCriticalServiceAfter) := by
  refine ⟨?_, ?_, ?_, ?_⟩ <;> intro h <;> unfold parseSpecialValues <;>
    simp only [h, Raw.isNil, Bool.not_true, Bool.false_eq_true, if_false] <;>
    (repeat' split) <;> rfl

theorem unmarshalJSON_cases (pd : String → Except String Int) (t : CheckDefinition)
    (data : Doc) (P : CheckDefinition → Prop)
    (h1 : P (jsonUnmarshal data { Alias := t }).1.Alias)
    (h2 : P (parseSpecialValues pd (translateFields (jsonUnmarshal data { Alias := t }).1)).1) :
    P (CheckDefinition.UnmarshalJSON pd t data).1 := by
  unfold CheckDefinition.UnmarshalJSON
  cases hr : (jsonUnmarshal data { Alias := t }).2 with
  | some e => simp only [hr]; exact h1
  | none => simp only [hr]; exact h2

theorem frame_Interval (pd : String → Except String Int) (t : CheckDefinition) (data : Doc)
    (hv : data.values .Interval = []) :
    (CheckDefinition.UnmarshalJSON pd t data).1.Interval = t.Interval := by
  have hd := jsonUnmarshal_durations data t
  have hn : (jsonUnmarshal data { Alias := t }).1.Interval = .nil :=
    foldl_decodeMember_frame (fun a => a.Interval) .Interval (by intro g v a hg; cases g <;> first | rfl | exact absurd rfl hg) data _ hv
  apply unmarshalJSON_cases pd t data (fun r => r.Interval = t.Interval)
  · exact hd.1
  · have hn' : (translateFields (jsonUnmarshal data { Alias := t }).1).Interval = .nil := hn
    rw [(parseSpecialValues_nil pd _).1 hn']
    exact hd.1

theorem frame_Timeout (pd : String → Except String Int) (t : CheckDefinition) (data : Doc)
    (hv : data.values .Timeout = []) :
    (CheckDefinition.UnmarshalJSON pd t data).1.Timeout = t.Timeout := by
  have hd := jsonUnmarshal_durations data t
  have hn : (jsonUnmarshal data { Alias := t }).1.Timeout = .nil :=
    foldl_decodeMember_frame (fun a => a.Timeout) .Timeout (by intro g v a hg; cases g <;> first | rfl | exact absurd rfl hg) data _ hv
  apply unmarshalJSON_cases pd t data (fun r => r.Timeout = t.Timeout)
  · exact hd.2.1
  · have hn' : (translateFields (jsonUnmarshal data { Alias := t }).1).Timeout = .nil := hn
    rw [(parseSpecialValues_nil pd _).2.1 hn']
    exact hd.2.1

theorem frame_TTL (pd : String → Except String Int) (t : CheckDefinition) (data : Doc)
    (hv : data.values .TTL = []) :
    (CheckDefinition.UnmarshalJSON pd t data).1.TTL = t.TTL := by
  have hd := jsonUnmarshal_durations data t
  have hn : (jsonUnmarshal data { Alias := t }).1.TTL = .nil :=
    foldl_decodeMember_frame (fun a => a.TTL) .TTL (by intro g v a hg; cases g <;> first | rfl | exact absurd rfl hg) data _ hv
  apply unmarshalJSON_cases pd t data (fun r => r.TTL = t.TTL)
  · exact hd.2.2.1
  · have hn' : (translateFields (jsonUnmarshal data { Alias := t }).1).TTL = .nil := hn
    rw [(parseSpecialValues_nil pd _).2.2.1 hn']
    exact hd.2.2.1

theorem frame_DeregisterCriticalServiceAfter (pd : String → Except String Int)
    (t : CheckDefinition) (data : Doc)
    (hv : data.values .DeregisterCriticalServiceAfter = [])
    (hc : data.values .DeregisterCriticalServiceAfterCamel = []) :
    (CheckDefinition.UnmarshalJSON pd t data).1.DeregisterCriticalServiceAfter
      = t.DeregisterCriticalServiceAfter := by
  have hd := jsonUnmarshal_durations data t
  have hn : (jsonUnmarshal data { Alias := t }).1.DeregisterCriticalServiceAfter = .nil :=
    foldl_decodeMember_frame (fun a => a.DeregisterCriticalServiceAfter)
      .DeregisterCriticalServiceAfter (by intro g v a hg; cases g <;> first | rfl | exact absurd rfl hg) data _ hv
  have hm : (jsonUnmarshal data { Alias := t }).1.DeregisterCriticalServiceAfterCamel = .nil :=
    foldl_decodeMember_frame (fun a => a.DeregisterCriticalServiceAfterCamel)
      .DeregisterCriticalServiceAfterCamel (by intro g v a hg; cases g <;> first | rfl | exact absurd rfl hg) data _ hc
  apply unmarshalJSON_cases pd t data
    (fun r => r.DeregisterCriticalServiceAfter = t.DeregisterCriticalServiceAfter)
  · exact hd.2.2.2
  · have hn' : (translateFields (jsonUnmarshal data { Alias := t }).1
        ).DeregisterCriticalServiceAfter = .nil := by
      simp [translateFields, hn, hm, Raw.isNil]
    rw [(parseSpecialValues_nil pd _).2.2.2 hn']
    exact hd.2.2.2

theorem frame_ScriptArgs (pd : String → Except String Int) (t : CheckDefinition) (data : Doc)
    (hv : data.values .ScriptArgs = []) (ha : data.values .ArgsCamel = [])
    (hs : data.values .ScriptArgsCamel = []) :
    (CheckDefinition.UnmarshalJSON pd t data).1.ScriptArgs = t.ScriptArgs := by
  have h0 : (jsonUnmarshal data { Alias := t }).1.Alias.ScriptArgs = t.ScriptArgs :=
    foldl_decodeMember_frame (fun a => a.Alias.ScriptArgs) .ScriptArgs (by intro g v a hg; cases g <;> first | rfl | exact absurd rfl hg) data _ hv
  have h1 : (jsonUnmarshal data { Alias := t }).1.ArgsCamel = none :=
    foldl_decodeMember_frame (fun a => a.ArgsCamel) .ArgsCamel (by intro g v a hg; cases g <;> first | rfl | exact absurd rfl hg) data _ ha
  have h2 : (jsonUnmarshal data { Alias := t }).1.ScriptArgsCamel = none :=
    foldl_decodeMember_frame (fun a => a.ScriptArgsCamel) .ScriptArgsCamel (by intro g v a hg; cases g <;> first | rfl | exact absurd rfl hg) data _ hs
  apply unmarshalJSON_cases pd t data (fun r => r.ScriptArgs = t.ScriptArgs)
  · exact h0
  · obtain ⟨i, o, l, d, hsh⟩ :=
      parseSpecialValues_shape pd (translateFields (jsonUnmarshal data { Alias := t }).1)
    rw [hsh]
    simp only [translateFields_ScriptArgs, h0, h1, h2]
    cases t.ScriptArgs <;> rfl

theorem frame_DockerContainerID (pd : String → Except String Int) (t : CheckDefinition)
    (data : Doc) (hv : data.values .DockerContainerID = [])
    (hc : data.values .DockerContainerIDCamel = []) :
    (CheckDefinition.UnmarshalJSON pd t data).1.DockerContainerID = t.DockerContainerID := by
  have h0 : (jsonUnmarshal data { Alias := t }).1.Alias.DockerContainerID
      = t.DockerContainerID :=
    foldl_decodeMember_frame (fun a => a.Alias.DockerContainerID) .DockerContainerID
      (by intro g v a hg; cases g <;> first | rfl | exact absurd rfl hg) data _ hv
  have h1 : (jsonUnmarshal data { Alias := t }).1.DockerContainerIDCamel = "" :=
    foldl_decodeMember_frame (fun a => a.DockerContainerIDCamel) .DockerContainerIDCamel
      (by intro g v a hg; cases g <;> first | rfl | exact absurd rfl hg) data _ hc
  apply unmarshalJSON_cases pd t data (fun r => r.DockerContainerID = t.DockerContainerID)
  · exact h0
  · obtain ⟨i, o, l, d, hsh⟩ :=
      parseSpecialValues_shape pd (translateFields (jsonUnmarshal data { Alias := t }).1)
    rw [hsh]
    simp only [translateFields_DockerContainerID, h0, h1]
    by_cases he : t.DockerContainerID = "" <;> simp [he]

theorem frame_ServiceID (pd : String → Except String Int) (t : CheckDefinition)
    (data : Doc) (hv : data.values .ServiceID = [])
    (hc : data.values .ServiceIDCamel = []) :
    (CheckDefinition.UnmarshalJSON pd t data).1.ServiceID = t.ServiceID := by
  have h0 : (jsonUnmarshal data { Alias := t }).1.Alias.ServiceID = t.ServiceID :=
    foldl_decodeMember_frame (fun a => a.Alias.ServiceID) .ServiceID (by intro g v a hg; cases g <;> first | rfl | exact absurd rfl hg) data _ hv
  have h1 : (jsonUnmarshal data { Alias := t }).1.ServiceIDCamel = "" :=
    foldl_decodeMember_frame (fun a => a.ServiceIDCamel) .ServiceIDCamel (by intro g v a hg; cases g <;> first | rfl | exact absurd rfl hg) data _ hc
  apply unmarshalJSON_cases pd t data (fun r => r.ServiceID = t.ServiceID)
  · exact h0
  · obtain ⟨i, o, l, d, hsh⟩ :=
      parseSpecialValues_shape pd (translateFields (jsonUnmarshal data { Alias := t }).1)
    rw [hsh]
    simp only [translateFields_ServiceID, h0, h1]
    by_cases he : t.ServiceID = "" <;> simp [he]

theorem frame_TLSSkipVerify (pd : String → Except String Int) (t : CheckDefinition)
    (data : Doc) (hv : data.values .TLSSkipVerify = [])
    (hc : data.values .TLSSkipVerifyCamel = []) :
    (CheckDefinition.UnmarshalJSON pd t data).1.TLSSkipVerify = t.TLSSkipVerify := by
  have h0 : (jsonUnmarshal data { Alias := t }).1.Alias.TLSSkipVerify = t.TLSSkipVerify :=
    foldl_decodeMember_frame (fun a => a.Alias.TLSSkipVerify) .TLSSkipVerify (by intro g v a hg; cases g <;> first | rfl | exact absurd rfl hg) data _ hv
  have h1 : (jsonUnmarshal data { Alias := t }).1.TLSSkipVerifyCamel = false :=
    foldl_decodeMember_frame (fun a => a.TLSSkipVerifyCamel) .TLSSkipVerifyCamel (by intro g v a hg; cases g <;> first | rfl | exact absurd rfl hg) data _ hc
  apply unmarshalJSON_cases pd t data (fun r => r.TLSSkipVerify = t.TLSSkipVerify)
  · exact h0
  · obtain ⟨i, o, l, d, hsh⟩ :=
      parseSpecialValues_shape pd (translateFields (jsonUnmarshal data { Alias := t }).1)
    rw [hsh]
    simp only [translateFields_TLSSkipVerify, h0, h1, Bool.or_false]

theorem frame_ID (pd : String → Except String Int) (t : CheckDefinition) (data : Doc)
    (hv : data.values .ID = []) :
    (CheckDefinition.UnmarshalJSON pd t data).1.ID = t.ID :=
  (unmarshalJSON_plain (fun c => c.ID) (fun _ => rfl) (fun _ _ _ _ _ => rfl) pd t data).trans
    (foldl_decodeMember_frame (fun a => a.Alias.ID) .ID (by intro g v a hg; cases g <;> first | rfl | exact absurd rfl hg) data _ hv)

theorem frame_Name (pd : String → Except String Int) (t : CheckDefinition) (data : Doc)
    (hv : data.values .Name = []) :
    (CheckDefinition.UnmarshalJSON pd t data).1.Name = t.Name :=
  (unmarshalJSON_plain (fun c => c.Name) (fun _ => rfl) (fun _ _ _ _ _ => rfl) pd t data).trans
    (foldl_decodeMember_frame (fun a => a.Alias.Name) .Name (by intro g v a hg; cases g <;> first | rfl | exact absurd rfl hg) data _ hv)

theorem frame_Notes (pd : String → Except String Int) (t : CheckDefinition) (data : Doc)
    (hv : data.values .Notes = []) :
    (CheckDefinition.UnmarshalJSON pd t data).1.Notes = t.Notes :=
  (unmarshalJSON_plain (fun c => c.Notes) (fun _ => rfl) (fun _ _ _ _ _ => rfl) pd t data).trans
    (foldl_decodeMember_frame (fun a => a.Alias.Notes) .Notes (by intro g v a hg; cases g <;> first | rfl | exact absurd rfl hg) data _ hv)

theorem frame_Token (pd : String → Except String Int) (t : CheckDefinition) (data : Doc)
    (hv : data.values .Token = []) :
    (CheckDefinition.UnmarshalJSON pd t data).1.Token = t.Token :=
  (unmarshalJSON_plain (fun c => c.Token) (fun _ => rfl) (fun _ _ _ _ _ => rfl) pd t data).trans
    (foldl_decodeMember_frame (fun a => a.Alias.Token) .Token (by intro g v a hg; cases g <;> first | rfl | exact absurd rfl hg) data _ hv)

theorem frame_Status (pd : String → Except String Int) (t : CheckDefinition) (data : Doc)
    (hv : data.values .Status = []) :
    (CheckDefinition.UnmarshalJSON pd t data).1.Status = t.Status :=
  (unmarshalJSON_plain (fun c => c.Status) (fun _ => rfl) (fun _ _ _ _ _ => rfl) pd t data).trans
    (foldl_decodeMember_frame (fun a => a.Alias.Status) .Status (by intro g v a hg; cases g <;> first | rfl | exact absurd rfl hg) data _ hv)

theorem frame_HTTP (pd : String → Except String Int) (t : CheckDefinition) (data : Doc)
    (hv : data.values .HTTP = []) :
    (CheckDefinition.UnmarshalJSON pd t data).1.HTTP = t.HTTP :=
  (unmarshalJSON_plain (fun c => c.HTTP) (fun _ => rfl) (fun _ _ _ _ _ => rfl) pd t data).trans
    (foldl_decodeMember_frame (fun a => a.Alias.HTTP) .HTTP (by intro g v a hg; cases g <;> first | rfl | exact absurd rfl hg) data _ hv)

theorem frame_Header (pd : String → Except String Int) (t : CheckDefinition) (data : Doc)
    (hv : data.values .Header = []) :
    (CheckDefinition.UnmarshalJSON pd t data).1.Header = t.Header :=
  (unmarshalJSON_plain (fun c => c.Header) (fun _ => rfl) (fun _ _ _ _ _ => rfl) pd t data).trans
    (foldl_decodeMember_frame (fun a => a.Alias.Header) .Header (by intro g v a hg; cases g <;> first | rfl | exact absurd rfl hg) data _ hv)

theorem frame_Method (pd : String → Except String Int) (t : CheckDefinition) (data : Doc)
    (hv : data.values .Method = []) :
    (CheckDefinition.UnmarshalJSON pd t data).1.Method = t.Method :=
  (unmarshalJSON_plain (fun c => c.Method) (fun _ => rfl) (fun _ _ _ _ _ => rfl) pd t data).trans
    (foldl_decodeMember_frame (fun a => a.Alias.Method) .Method (by intro g v a hg; cases g <;> first | rfl | exact absurd rfl hg) data _ hv)

theorem frame_TCP (pd : String → Except String Int) (t : CheckDefinition) (data : Doc)
    (hv : data.values .TCP = []) :
    (CheckDefinition.UnmarshalJSON pd t data).1.TCP = t.TCP :=
  (unmarshalJSON_plain (fun c => c.TCP) (fun _ => rfl) (fun _ _ _ _ _ => rfl) pd t data).trans
    (foldl_decodeMember_frame (fun a => a.Alias.TCP) .TCP (by intro g v a hg; cases g <;> first | rfl | exact absurd rfl hg) data _ hv)

theorem frame_Shell (pd : String → Except String Int) (t : CheckDefinition) (data : Doc)
    (hv : data.values .Shell = []) :
    (CheckDefinition.UnmarshalJSON pd t data).1.Shell = t.Shell :=
  (unmarshalJSON_plain (fun c => c.Shell) (fun _ => rfl) (fun _ _ _ _ _ => rfl) pd t data).trans
    (foldl_decodeMember_frame (fun a => a.Alias.Shell) .Shell (by intro g v a hg; cases g <;> first | rfl | exact absurd rfl hg) data _ hv)

theorem frame_GRPC (pd : String → Except String Int) (t : CheckDefinition) (data : Doc)
    (hv : data.values .GRPC = []) :
    (CheckDefinition.UnmarshalJSON pd t data).1.GRPC = t.GRPC :=
  (unmarshalJSON_plain (fun c => c.GRPC) (fun _ => rfl) (fun _ _ _ _ _ => rfl) pd t data).trans
    (foldl_decodeMember_frame (fun a => a.Alias.GRPC) .GRPC (by intro g v a hg; cases g <;> first | rfl | exact absurd rfl hg) data _ hv)

theorem frame_GRPCUseTLS (pd : String → Except String Int) (t : CheckDefinition) (data : Doc)
    (hv : data.values .GRPCUseTLS = []) :
    (CheckDefinition.UnmarshalJSON pd t data).1.GRPCUseTLS = t.GRPCUseTLS :=
  (unmarshalJSON_plain (fun c => c.GRPCUseTLS) (fun _ => rfl) (fun _ _ _ _ _ => rfl) pd t data).trans
    (foldl_decodeMember_frame (fun a => a.Alias.GRPCUseTLS) .GRPCUseTLS (by intro g v a hg; cases g <;> first | rfl | exact absurd rfl hg) data _ hv)

theorem frame_AliasNode (pd : String → Except String Int) (t : CheckDefinition) (data : Doc)
    (hv : data.values .AliasNode = []) :
    (CheckDefinition.UnmarshalJSON pd t data).1.AliasNode = t.AliasNode :=
  (unmarshalJSON_plain (fun c => c.AliasNode) (fun _ => rfl) (fun _ _ _ _ _ => rfl) pd t data).trans
    (foldl_decodeMember_frame (fun a => a.Alias.AliasNode) .AliasNode (by intro g v a hg; cases g <;> first | rfl | exact absurd rfl hg) data _ hv)

theorem frame_AliasService (pd : String → Except String Int) (t : CheckDefinition) (data : Doc)
    (hv : data.values .AliasService = []) :
    (CheckDefinition.UnmarshalJSON pd t data).1.AliasService = t.AliasService :=
  (unmarshalJSON_plain (fun c => c.AliasService) (fun _ => rfl) (fun _ _ _ _ _ => rfl) pd t data).trans
    (foldl_decodeMember_frame (fun a => a.Alias.AliasService) .AliasService (by intro g v a hg; cases g <;> first | rfl | exact absurd rfl hg) data _ hv)

theorem frame_SuccessBeforePassing (pd : String → Except String Int) (t : CheckDefinition) (data : Doc)
    (hv : data.values .SuccessBeforePassing = []) :
    (CheckDefinition.UnmarshalJSON pd t data).1.SuccessBeforePassing = t.SuccessBeforePassing :=
  (unmarshalJSON_plain (fun c => c.SuccessBeforePassing) (fun _ => rfl) (fun _ _ _ _ _ => rfl) pd t data).trans
    (foldl_decodeMember_frame (fun a => a.Alias.SuccessBeforePassing) .SuccessBeforePassing (by intro g v a hg; cases g <;> first | rfl | exact absurd rfl hg) data _ hv)

theorem frame_FailuresBeforeCritical (pd : String → Except String Int) (t : CheckDefinition) (data : Doc)
    (hv : data.values .FailuresBeforeCritical = []) :
    (CheckDefinition.UnmarshalJSON pd t data).1.FailuresBeforeCritical = t.FailuresBeforeCritical :=
  (unmarshalJSON_plain (fun c => c.FailuresBeforeCritical) (fun _ => rfl) (fun _ _ _ _ _ => rfl) pd t data).trans
    (foldl_decodeMember_frame (fun a => a.Alias.FailuresBeforeCritical) .FailuresBeforeCritical (by intro g v a hg; cases g <;> first | rfl | exact absurd rfl hg) data _ hv)

theorem frame_OutputMaxSize (pd : String → Except String Int) (t : CheckDefinition) (data : Doc)
    (hv : data.values .OutputMaxSize = []) :
    (CheckDefinition.UnmarshalJSON pd t data).1.OutputMaxSize = t.OutputMaxSize :=
  (unmarshalJSON_plain (fun c => c.OutputMaxSize) (fun _ => rfl) (fun _ _ _ _ _ => rfl) pd t data).trans
    (foldl_decodeMember_frame (fun a => a.Alias.OutputMaxSize) .OutputMaxSize (by intro g v a hg; cases g <;> first | rfl | exact absurd rfl hg) data _ hv)

/-- C15, as the code has it: the decode is not atomic.  The document
`{"Name": "web", "TTL": "bogus"}` makes the decode into a fresh record return an error
and leaves the name in the record; with `{"service_id": "s1", "TTL": "5s",
"DeregisterCriticalServiceAfter": "bogus"}` the error leaves behind the service id set by
the alias resolution and the durations of the blocks before the failing one. -/
theorem failed_decode_leaves_fields :
    (CheckDefinition.UnmarshalJSON parseSeconds {}
        [("Name", .str "web"), ("TTL", .str "bogus")]).2 ≠ none ∧
    (CheckDefinition.UnmarshalJSON parseSeconds {}
        [("Name", .str "web"), ("TTL", .str "bogus")]).1 ≠ {} ∧
    (CheckDefinition.UnmarshalJSON parseSeconds {}
        [("Name", .str "web"), ("TTL", .str "bogus")]).1.Name = "web" ∧
    (CheckDefinition.UnmarshalJSON parseSeconds {}
        [("service_id", .str "s1"), ("TTL", .str "5s"),
          ("DeregisterCriticalServiceAfter", .str "bogus")]).2 ≠ none ∧
    (CheckDefinition.UnmarshalJSON parseSeconds {}
        [("service_id", .str "s1"), ("TTL", .str "5s"),
          ("DeregisterCriticalServiceAfter", .str "bogus")]).1
      = { ServiceID := "s1", TTL := 5000000000 } := by
  refine ⟨by decide, by decide, by decide, by decide, by decide⟩

/-- C15 amended: a decode that returns an error (as one that succeeds) leaves every
field of the target record that the document has no key for as it was before the call:
when no member of the document names the field `f`, under its primary key or an
alternate key, the record after the call agrees with the record before the call on
`f`. -/
theorem failed_decode_frame (pd : String → Except String Int) (t : CheckDefinition)
    (data : Doc) (f : Field) (hf : ∀ g ∈ f.sources, data.values g = []) :
    CheckDefinition.agreeOn f (CheckDefinition.UnmarshalJSON pd t data).1 t := by
  cases f with
  | ID => exact frame_ID pd t data (hf .ID (by decide))
  | Name => exact frame_Name pd t data (hf .Name (by decide))
  | Notes => exact frame_Notes pd t data (hf .Notes (by decide))
  | Token => exact frame_Token pd t data (hf .Token (by decide))
  | Status => exact frame_Status pd t data (hf .Status (by decide))
  | HTTP => exact frame_HTTP pd t data (hf .HTTP (by decide))
  | Header => exact frame_Header pd t data (hf .Header (by decide))
  | Method => exact frame_Method pd t data (hf .Method (by decide))
  | TCP => exact frame_TCP pd t data (hf .TCP (by decide))
  | Shell => exact frame_Shell pd t data (hf .Shell (by decide))
  | GRPC => exact frame_GRPC pd t data (hf .GRPC (by decide))
  | GRPCUseTLS => exact frame_GRPCUseTLS pd t data (hf .GRPCUseTLS (by decide))
  | AliasNode => exact frame_AliasNode pd t data (hf .AliasNode (by decide))
  | AliasService => exact frame_AliasService pd t data (hf .AliasService (by decide))
  | SuccessBeforePassing => exact frame_SuccessBeforePassing pd t data (hf .SuccessBeforePassing (by decide))
  | FailuresBeforeCritical => exact frame_FailuresBeforeCritical pd t data (hf .FailuresBeforeCritical (by decide))
  | OutputMaxSize => exact frame_OutputMaxSize pd t data (hf .OutputMaxSize (by decide))
  | Interval => exact frame_Interval pd t data (hf .Interval (by decide))
  | Timeout => exact frame_Timeout pd t data (hf .Timeout (by decide))
  | TTL => exact frame_TTL pd t data (hf .TTL (by decide))
  | DockerContainerID =>
    exact frame_DockerContainerID pd t data (hf .DockerContainerID (by decide)) (hf .DockerContainerIDCamel (by decide))
  | DockerContainerIDCamel =>
    exact frame_DockerContainerID pd t data (hf .DockerContainerID (by decide)) (hf .DockerContainerIDCamel (by decide))
  | ServiceID =>
    exact frame_ServiceID pd t data (hf .ServiceID (by decide)) (hf .ServiceIDCamel (by decide))
  | ServiceIDCamel =>
    exact frame_ServiceID pd t data (hf .ServiceID (by decide)) (hf .ServiceIDCamel (by decide))
  | TLSSkipVerify =>
    exact frame_TLSSkipVerify pd t data (hf .TLSSkipVerify (by decide)) (hf .TLSSkipVerifyCamel (by decide))
  | TLSSkipVerifyCamel =>
    exact frame_TLSSkipVerify pd t data (hf .TLSSkipVerify (by decide)) (hf .TLSSkipVerifyCamel (by decide))
  | DeregisterCriticalServiceAfter =>
    exact frame_DeregisterCriticalServiceAfter pd t data (hf .DeregisterCriticalServiceAfter (by decide)) (hf .DeregisterCriticalServiceAfterCamel (by decide))
  | DeregisterCriticalServiceAfterCamel =>
    exact frame_DeregisterCriticalServiceAfter pd t data (hf .DeregisterCriticalServiceAfter (by decide)) (hf .DeregisterCriticalServiceAfterCamel (by decide))
  | ScriptArgs =>
    exact frame_ScriptArgs pd t data (hf .ScriptArgs (by decide)) (hf .ArgsCamel (by decide))
      (hf .ScriptArgsCamel (by decide))
  | ArgsCamel =>
    exact frame_ScriptArgs pd t data (hf .ScriptArgs (by decide)) (hf .ArgsCamel (by decide))
      (hf .ScriptArgsCamel (by decide))
  | ScriptArgsCamel =>
    exact frame_ScriptArgs pd t data (hf .ScriptArgs (by decide)) (hf .ArgsCamel (by decide))
      (hf .ScriptArgsCamel (by decide))

theorem failed_decode_frame_witness :
    (CheckDefinition.UnmarshalJSON parseSeconds { Token := "tok", ServiceID := "s0" }
        [("Name", .str "web"), ("TTL", .str "bogus")]).2 ≠ none ∧
    (CheckDefinition.UnmarshalJSON parseSeconds { Token := "tok", ServiceID := "s0" }
        [("Name", .str "web"), ("TTL", .str "bogus")]).1.ServiceID = "s0" :=
  ⟨by decide,
   failed_decode_frame parseSeconds { Token := "tok", ServiceID := "s0" }
     [("Name", .str "web"), ("TTL", .str "bogus")] .ServiceID
     (by
       intro g hg
       simp only [Field.sources, Field.primary, List.mem_cons, List.mem_singleton,
         List.mem_nil_iff, or_false] at hg
       rcases hg with rfl | rfl <;> rfl)⟩


/-! ## Decoding a serialised record -/

theorem decodeElems_encode (xs : List String) (old : List String) :
    decodeElems old (xs.map JSON.str) = (xs, none) := by
  induction xs generalizing old with
  | nil => rfl
  | cons x rest ih =>
    simp only [List.map_cons, decodeElems, ih, decodeString, saveError]

theorem decodeStrings_encode (v : Option (List String)) :
    decodeStrings (none, []) (encodeStrings v) = ((v, []), none) := by
  cases v with
  | none => rfl
  | some xs =>
    cases xs with
    | nil => rfl
    | cons x rest =>
      simp only [encodeStrings, List.map_cons, decodeStrings, Option.getD_none,
        List.append_nil, List.drop_nil]
      rw [← List.map_cons, decodeElems_encode]

theorem mem_mapAssign {α : Type} (m : List (String × α)) (k : String) (v : α)
    (b : String × α) (h : b ∈ mapAssign m k v) : b = (k, v) ∨ b ∈ m := by
  induction m with
  | nil =>
    simp only [mapAssign, List.mem_singleton] at h
    exact Or.inl h
  | cons hd tl ih =>
    obtain ⟨k', v'⟩ := hd
    unfold mapAssign at h
    split_ifs at h with h1 h2
    · rcases List.mem_cons.1 h with h | h
      · exact Or.inl h
      · exact Or.inr (List.mem_cons_of_mem _ h)
    · rcases List.mem_cons.1 h with h | h
      · exact Or.inl h
      · exact Or.inr h
    · rcases List.mem_cons.1 h with h | h
      · exact Or.inr (h ▸ List.mem_cons_self _ _)
      · rcases ih h with h | h
        · exact Or.inl h
        · exact Or.inr (List.mem_cons_of_mem _ h)

theorem mapAssign_pairwise {α : Type} (m : List (String × α)) (k : String) (v : α)
    (h : m.Pairwise fun a b => a.1 < b.1) :
    (mapAssign m k v).Pairwise fun a b => a.1 < b.1 := by
  induction m with
  | nil => simp [mapAssign]
  | cons hd tl ih =>
    obtain ⟨k', v'⟩ := hd
    rw [List.pairwise_cons] at h
    unfold mapAssign
    split_ifs with h1 h2
    · rw [List.pairwise_cons]
      exact ⟨fun b hb => h1 ▸ h.1 b hb, h.2⟩
    · rw [List.pairwise_cons, List.pairwise_cons]
      refine ⟨fun b hb => ?_, h⟩
      rcases List.mem_cons.1 hb with hb | hb
      · rw [hb]; exact h2
      · exact lt_trans h2 (h.1 b hb)
    · rw [List.pairwise_cons]
      refine ⟨fun b hb => ?_, ih h.2⟩
      rcases mem_mapAssign tl k v b hb with hb | hb
      · rw [hb]
        exact lt_of_le_of_ne (not_lt.1 h2) h1
      · exact h.1 b hb

theorem mapAssign_append {α : Type} (m : List (String × α)) (k : String) (v : α)
    (h : ∀ a ∈ m, a.1 < k) : mapAssign m k v = m ++ [(k, v)] := by
  induction m with
  | nil => rfl
  | cons hd tl ih =>
    obtain ⟨k', v'⟩ := hd
    have hk : k' < k := h (k', v') (List.mem_cons_self _ _)
    unfold mapAssign
    rw [if_neg (ne_of_lt hk), if_neg (lt_asymm hk)]
    rw [ih (fun a ha => h a (List.mem_cons_of_mem _ ha))]
    rfl


theorem decodeMembers_encode (rest m0 : List (String × Option (List String)))
    (h : (m0 ++ rest).Pairwise fun a b => a.1 < b.1) :
    decodeMembers m0 (rest.map fun kv => (kv.1, encodeStrings kv.2)) = (m0 ++ rest, none) := by
  induction rest generalizing m0 with
  | nil => simp [decodeMembers]
  | cons hd tl ih =>
    obtain ⟨k, v⟩ := hd
    have hlt : ∀ a ∈ m0, a.1 < k := by
      intro a ha
      exact (List.pairwise_append.1 h).2.2 a ha (k, v) (List.mem_cons_self _ _)
    have h' : ((m0 ++ [(k, v)]) ++ tl).Pairwise fun a b => a.1 < b.1 := by
      rw [List.append_assoc]
      exact h
    simp only [List.map_cons, decodeMembers, decodeStrings_encode, mapAssign_append m0 k v hlt,
      ih _ h', saveError, List.append_assoc, List.singleton_append]

theorem decodeHeader_encode (v : Option (List (String × Option (List String))))
    (h : (v.getD []).Pairwise fun a b => a.1 < b.1) :
    decodeHeader none (encodeHeader v) = (v, none) := by
  cases v with
  | none => rfl
  | some m =>
    have := decodeMembers_encode m [] (by simpa using h)
    simp only [encodeHeader, decodeHeader, Option.getD_none, this, List.nil_append]

theorem decodeMembers_pairwise (kvs : List (String × JSON))
    (m : List (String × Option (List String))) (h : m.Pairwise fun a b => a.1 < b.1) :
    (decodeMembers m kvs).1.Pairwise fun a b => a.1 < b.1 := by
  induction kvs generalizing m with
  | nil => exact h
  | cons hd tl ih =>
    obtain ⟨k, x⟩ := hd
    simp only [decodeMembers]
    exact ih _ (mapAssign_pairwise m k _ h)

theorem decodeHeader_pairwise (old : Option (List (String × Option (List String))))
    (v : JSON) (h : (old.getD []).Pairwise fun a b => a.1 < b.1) :
    ((decodeHeader old v).1.getD []).Pairwise fun a b => a.1 < b.1 := by
  cases v with
  | null => simp [decodeHeader]
  | obj kvs =>
    simp only [decodeHeader, Option.getD_some]
    exact decodeMembers_pairwise kvs _ h
  | _ => exact h

theorem decodeInt_inInt64 (old : Int) (v : JSON) (h : inInt64 old) :
    inInt64 (decodeInt old v).1 := by
  cases v with
  | num n =>
    cases n with
    | int k =>
      simp only [decodeInt]
      split_ifs with hk
      · exact hk
      · exact h
    | dec m x => exact h
  | _ => exact h

theorem decodeInt_of_inInt64 (old n : Int) (h : inInt64 n) :
    decodeInt old (.num (.int n)) = (n, none) := by
  unfold inInt64 at h
  simp only [decodeInt, h, and_self, if_true]

theorem roundFloat64_isSome (n : Nat) (hb : n ≤ 2 ^ 63) : (roundFloat64 n 1).isSome = true := by
  by_cases h0 : n = 0
  · simp [roundFloat64, h0]
  · have hlo := bitLen_le n h0
    have hp := bitLen_pos n h0
    have ha : bitLen n ≤ 64 := by
      have : 2 ^ (bitLen n - 1) < 2 ^ 64 := by
        calc 2 ^ (bitLen n - 1) ≤ n := hlo
          _ ≤ 2 ^ 63 := hb
          _ < 2 ^ 64 := by norm_num
      have := (Nat.pow_lt_pow_iff_right (a := 2) (by norm_num)).1 this
      omega
    have he : max (floorLog2 n 1 - 52) (-1074) = (bitLen n : Int) - 53 := by
      rw [floorLog2_one n h0]; omega
    unfold roundFloat64
    simp only [h0, if_false, he]
    rw [if_neg (by omega)]
    rfl

theorem toFloat64_int_isSome (n : Int) (h : inInt64 n) :
    ∃ f, (Number.int n).toFloat64 = some f := by
  unfold inInt64 at h
  have hb : n.natAbs ≤ 2 ^ 63 := by omega
  have := roundFloat64_isSome n.natAbs hb
  obtain ⟨r, hr⟩ := Option.isSome_iff_exists.1 this
  exact ⟨⟨decide (n < 0), r.1, r.2⟩, by simp [Number.toFloat64, hr]⟩


theorem findField_key (f : Field) : findField f.key = some f := by
  cases f <;> decide

theorem jsonUnmarshal_marshal (r : CheckDefinition) (fI fO fL fD : Float64)
    (hI : (Number.int r.Interval).toFloat64 = some fI)
    (hO : (Number.int r.Timeout).toFloat64 = some fO)
    (hL : (Number.int r.TTL).toFloat64 = some fL)
    (hD : (Number.int r.DeregisterCriticalServiceAfter).toFloat64 = some fD)
    (h1 : inInt64 r.SuccessBeforePassing) (h2 : inInt64 r.FailuresBeforeCritical)
    (h3 : inInt64 r.OutputMaxSize)
    (hH : (r.Header.getD []).Pairwise fun a b => a.1 < b.1) :
    jsonUnmarshal r.marshal {} =
      ({ Interval := .float64 fI, Timeout := .float64 fO, TTL := .float64 fL,
         DeregisterCriticalServiceAfter := .float64 fD,
         Alias := { r with Interval := 0, Timeout := 0, TTL := 0,
                           DeregisterCriticalServiceAfter := 0 } }, none) := by
  have k0 : findField "ID" = some .ID := findField_key .ID
  have k1 : findField "Name" = some .Name := findField_key .Name
  have k2 : findField "Notes" = some .Notes := findField_key .Notes
  have k3 : findField "ServiceID" = some .ServiceID := findField_key .ServiceID
  have k4 : findField "Token" = some .Token := findField_key .Token
  have k5 : findField "Status" = some .Status := findField_key .Status
  have k6 : findField "ScriptArgs" = some .ScriptArgs := findField_key .ScriptArgs
  have k7 : findField "HTTP" = some .HTTP := findField_key .HTTP
  have k8 : findField "Header" = some .Header := findField_key .Header
  have k9 : findField "Method" = some .Method := findField_key .Method
  have k10 : findField "TCP" = some .TCP := findField_key .TCP
  have k11 : findField "Interval" = some .Interval := findField_key .Interval
  have k12 : findField "DockerContainerID" = some .DockerContainerID := findField_key .DockerContainerID
  have k13 : findField "Shell" = some .Shell := findField_key .Shell
  have k14 : findField "GRPC" = some .GRPC := findField_key .GRPC
  have k15 : findField "GRPCUseTLS" = some .GRPCUseTLS := findField_key .GRPCUseTLS
  have k16 : findField "TLSSkipVerify" = some .TLSSkipVerify := findField_key .TLSSkipVerify
  have k17 : findField "AliasNode" = some .AliasNode := findField_key .AliasNode
  have k18 : findField "AliasService" = some .AliasService := findField_key .AliasService
  have k19 : findField "Timeout" = some .Timeout := findField_key .Timeout
  have k20 : findField "TTL" = some .TTL := findField_key .TTL
  have k21 : findField "SuccessBeforePassing" = some .SuccessBeforePassing := findField_key .SuccessBeforePassing
  have k22 : findField "FailuresBeforeCritical" = some .FailuresBeforeCritical := findField_key .FailuresBeforeCritical
  have k23 : findField "DeregisterCriticalServiceAfter" = some .DeregisterCriticalServiceAfter := findField_key .DeregisterCriticalServiceAfter
  have k24 : findField "OutputMaxSize" = some .OutputMaxSize := findField_key .OutputMaxSize
  simp only [CheckDefinition.marshal, jsonUnmarshal, List.foldl_cons, List.foldl_nil,
    decodeMember, k0, k1, k2, k3, k4, k5, k6, k7, k8, k9, k10, k11, k12, k13, k14, k15, k16, k17, k18, k19, k20, k21, k22, k23, k24, decodeField, decodeString, decodeBool,
    decodeStrings_encode, decodeHeader_encode r.Header hH, decodeInt_of_inInt64 _ _ h1,
    decodeInt_of_inInt64 _ _ h2, decodeInt_of_inInt64 _ _ h3, decodeInterface, hI, hO, hL, hD,
    typeError, saveError, Option.map_none']


theorem unmarshalJSON_marshal (pd : String → Except String Int) (r : CheckDefinition)
    (hI : inInt64 r.Interval) (hO : inInt64 r.Timeout)
    (hL : inInt64 r.TTL) (hLx : Float64Exact r.TTL)
    (hD : inInt64 r.DeregisterCriticalServiceAfter)
    (hDx : Float64Exact r.DeregisterCriticalServiceAfter)
    (h1 : inInt64 r.SuccessBeforePassing) (h2 : inInt64 r.FailuresBeforeCritical)
    (h3 : inInt64 r.OutputMaxSize)
    (hH : (r.Header.getD []).Pairwise fun a b => a.1 < b.1) :
    CheckDefinition.UnmarshalJSON pd {} r.marshal
      = ({ r with Interval := r.TTL, Timeout := r.TTL }, none) := by
  obtain ⟨fI, hfI⟩ := toFloat64_int_isSome r.Interval hI
  obtain ⟨fO, hfO⟩ := toFloat64_int_isSome r.Timeout hO
  obtain ⟨fL, hfL, hvL⟩ := toFloat64_int_exact r.TTL hLx hL.1 hL.2
  obtain ⟨fD, hfD, hvD⟩ := toFloat64_int_exact r.DeregisterCriticalServiceAfter hDx hD.1 hD.2
  have hj := jsonUnmarshal_marshal r fI fO fL fD hfI hfO hfL hfD h1 h2 h3 hH
  unfold CheckDefinition.UnmarshalJSON
  simp only [hj]
  obtain ⟨_, _, _, sid, _, _, sa, _, _, _, _, _, dk, _, _, _, tls, _, _, _, _, _, _, _, _⟩ := r
  simp only at hvL hvD
  cases sa <;> cases tls <;> by_cases hs : sid = "" <;> by_cases hk : dk = "" <;>
    simp [translateFields, parseSpecialValues, parseSpecial, Raw.isNil, hvL, hvD, hs, hk]

theorem foldl_invariant {α β : Type} (P : α → Prop) (d : α → β → α)
    (h : ∀ old v, P old → P (d old v)) (l : List β) (init : α) (h0 : P init) :
    P (l.foldl d init) := by
  induction l generalizing init with
  | nil => exact h0
  | cons x rest ih => exact ih _ (h _ _ h0)

theorem unmarshalJSON_wellFormed (pd : String → Except String Int) (data : Doc) :
    inInt64 (CheckDefinition.UnmarshalJSON pd {} data).1.SuccessBeforePassing ∧
    inInt64 (CheckDefinition.UnmarshalJSON pd {} data).1.FailuresBeforeCritical ∧
    inInt64 (CheckDefinition.UnmarshalJSON pd {} data).1.OutputMaxSize ∧
    (((CheckDefinition.UnmarshalJSON pd {} data).1.Header).getD []).Pairwise
      (fun a b => a.1 < b.1) := by
  have z : inInt64 0 := by unfold inInt64; norm_num
  refine ⟨?_, ?_, ?_, ?_⟩
  · rw [unmarshalJSON_plain (fun c => c.SuccessBeforePassing) (fun _ => rfl)
      (fun _ _ _ _ _ => rfl) pd {} data]
    rw [show (jsonUnmarshal data { Alias := {} }).1.Alias.SuccessBeforePassing = _ from
      foldl_decodeMember_proj (fun a => a.Alias.SuccessBeforePassing) .SuccessBeforePassing
        (fun old v => (decodeInt old v).1) (by intro g v a; cases g <;> rfl) data _]
    exact foldl_invariant inInt64 _ (fun old v h => decodeInt_inInt64 old v h) _ _ z
  · rw [unmarshalJSON_plain (fun c => c.FailuresBeforeCritical) (fun _ => rfl)
      (fun _ _ _ _ _ => rfl) pd {} data]
    rw [show (jsonUnmarshal data { Alias := {} }).1.Alias.FailuresBeforeCritical = _ from
      foldl_decodeMember_proj (fun a => a.Alias.FailuresBeforeCritical) .FailuresBeforeCritical
        (fun old v => (decodeInt old v).1) (by intro g v a; cases g <;> rfl) data _]
    exact foldl_invariant inInt64 _ (fun old v h => decodeInt_inInt64 old v h) _ _ z
  · rw [unmarshalJSON_plain (fun c => c.OutputMaxSize) (fun _ => rfl)
      (fun _ _ _ _ _ => rfl) pd {} data]
    rw [show (jsonUnmarshal data { Alias := {} }).1.Alias.OutputMaxSize = _ from
      foldl_decodeMember_proj (fun a => a.Alias.OutputMaxSize) .OutputMaxSize
        (fun old v => (decodeInt old v).1) (by intro g v a; cases g <;> rfl) data _]
    exact foldl_invariant inInt64 _ (fun old v h => decodeInt_inInt64 old v h) _ _ z
  · rw [unmarshalJSON_plain (fun c => c.Header) (fun _ => rfl)
      (fun _ _ _ _ _ => rfl) pd {} data]
    rw [show (jsonUnmarshal data { Alias := {} }).1.Alias.Header = _ from
      foldl_decodeMember_proj (fun a => a.Alias.Header) .Header
        (fun old v => (decodeHeader old v).1) (by intro g v a; cases g <;> rfl) data _]
    exact foldl_invariant (fun m => (m.getD []).Pairwise fun a b => a.1 < b.1) _
      (fun old v h => decodeHeader_pairwise old v h) _ none List.Pairwise.nil

/-- C13, as the code has it: decoding the serialisation of a decoded record does not
give the record back.  The document `{"TTL": 5}` decodes to a record with `TTL = 5` and
`Interval = 0`; its serialisation holds `"Interval": 0` and `"TTL": 5` and decodes to a
record with `Interval = 5`.  The document `{"TTL": "5000000001s"}` decodes to
`TTL = 5000000001000000000`, which is no float64; its serialisation decodes to
`TTL = 5000000000999999488`. -/
theorem reserialised_decode_differs :
    (CheckDefinition.UnmarshalJSON parseSeconds {} [("TTL", .num (.int 5))]).2 = none ∧
    (CheckDefinition.UnmarshalJSON parseSeconds {}
      (CheckDefinition.UnmarshalJSON parseSeconds {} [("TTL", .num (.int 5))]).1.marshal).1
      ≠ (CheckDefinition.UnmarshalJSON parseSeconds {} [("TTL", .num (.int 5))]).1 ∧
    (CheckDefinition.UnmarshalJSON parseSeconds {} [("TTL", .num (.int 5))]).1.Interval = 0 ∧
    (CheckDefinition.UnmarshalJSON parseSeconds {}
      (CheckDefinition.UnmarshalJSON parseSeconds {} [("TTL", .num (.int 5))]).1.marshal
        ).1.Interval = 5 ∧
    (CheckDefinition.UnmarshalJSON parseSeconds {} [("TTL", .str "5000000001s")])
      = ({ TTL := 5000000001000000000 }, none) ∧
    (CheckDefinition.UnmarshalJSON parseSeconds {}
      ({ TTL := 5000000001000000000 } : CheckDefinition).marshal).1.TTL
      = 5000000000999999488 := by
  refine ⟨by decide, by decide, by decide, by decide, by decide, by decide⟩

/-- C13 amended: for every record `r` obtained by a successful decode into a fresh
record whose `TTL` and `DeregisterCriticalServiceAfter` are int64 values that are
float64 values, decoding the document that serialises `r` into a fresh record succeeds
and gives a record equal to `r` in every field other than `Interval` and `Timeout`. -/
theorem reserialised_decode_stable (pd : String → Except String Int) (data : Doc)
    (h : (CheckDefinition.UnmarshalJSON pd {} data).2 = none)
    (hL : inInt64 (CheckDefinition.UnmarshalJSON pd {} data).1.TTL)
    (hLx : Float64Exact (CheckDefinition.UnmarshalJSON pd {} data).1.TTL)
    (hD : inInt64 (CheckDefinition.UnmarshalJSON pd {} data).1.DeregisterCriticalServiceAfter)
    (hDx : Float64Exact
      (CheckDefinition.UnmarshalJSON pd {} data).1.DeregisterCriticalServiceAfter) :
    (CheckDefinition.UnmarshalJSON pd {}
      (CheckDefinition.UnmarshalJSON pd {} data).1.marshal).2 = none ∧
    { (CheckDefinition.UnmarshalJSON pd {}
        (CheckDefinition.UnmarshalJSON pd {} data).1.marshal).1 with
      Interval := (CheckDefinition.UnmarshalJSON pd {} data).1.Interval
      Timeout := (CheckDefinition.UnmarshalJSON pd {} data).1.Timeout }
      = (CheckDefinition.UnmarshalJSON pd {} data).1 := by
  obtain ⟨w1, w2, w3, w4⟩ := unmarshalJSON_wellFormed pd data
  obtain ⟨f1, f2, f3, _⟩ := unmarshalJSON_fst pd data h
  rw [parseSpecial_guard] at f3
  have z : inInt64 0 := by unfold inInt64; norm_num
  have hI : inInt64 (CheckDefinition.UnmarshalJSON pd {} data).1.Interval := by
    rw [f1]
    cases hn : (data.rawAt .Interval).isNil
    · show inInt64 (parseSpecial pd (data.rawAt .TTL) 0).1
      rw [← f3]
      exact hL
    · exact z
  have hO : inInt64 (CheckDefinition.UnmarshalJSON pd {} data).1.Timeout := by
    rw [f2]
    cases hn : (data.rawAt .Timeout).isNil
    · show inInt64 (parseSpecial pd (data.rawAt .TTL) 0).1
      rw [← f3]
      exact hL
    · exact z
  rw [unmarshalJSON_marshal pd _ hI hO hL hLx hD hDx w1 w2 w3 w4]
  exact ⟨rfl, rfl⟩

theorem reserialised_decode_stable_witness :
    (CheckDefinition.UnmarshalJSON parseSeconds {}
      [("Name", .str "web"), ("TTL", .str "30s"), ("script_args", .arr [.str "x"]),
        ("Header", .obj [("b", .arr [.str "1"]), ("a", .null)])]).2 = none ∧
    (CheckDefinition.UnmarshalJSON parseSeconds {}
      (CheckDefinition.UnmarshalJSON parseSeconds {}
        [("Name", .str "web"), ("TTL", .str "30s"), ("script_args", .arr [.str "x"]),
          ("Header", .obj [("b", .arr [.str "1"]), ("a", .null)])]).1.marshal).2 = none :=
  ⟨by decide,
   (reserialised_decode_stable parseSeconds
      [("Name", .str "web"), ("TTL", .str "30s"), ("script_args", .arr [.str "x"]),
        ("Header", .obj [("b", .arr [.str "1"]), ("a", .null)])]
      (by decide) (by unfold inInt64; decide) ⟨30000000000, 0, by decide, by decide⟩
      (by unfold inInt64; decide) ⟨0, 0, by decide, by decide⟩).1⟩

end structs
